import Mathlib

/-!
Verification development for the Uddin-Lang tree-walking interpreter
(Go sources under `interpreter/`).  The Go code is shallow-embedded here:

* machine `int` is modelled as unbounded `Int` (the language spec leaves
  64-bit overflow behaviour open and no verified property exercises it);
* Go `float64` is modelled as `Rat`; no verified property depends on
  floating-point rounding or formatting;
* Go strings are modelled as Lean `String` / `List Char`; for the inputs the
  properties exercise (valid UTF-8) byte-wise Go string comparison coincides
  with the code-point order used here;
* `panic`/`recover` control flow is modelled by an explicit exception type
  threaded through every evaluation function;
* the Go interpreter mutates a global scope stack; the embedding threads the
  scope stack explicitly and returns it together with the result (deferred
  `popScope` calls run on both the normal and the panicking path, which the
  embedding mirrors case by case);
* arrays (`*[]Value`) and objects (`map[string]Value`) are reference values
  in Go.  No verified property depends on aliasing, so they are embedded as
  immutable lists; in-place subscript assignment is modelled as the same
  sequence of checks with the store update dropped (see `assignSubscript`);
* potentially diverging loops and recursion are handled with a fuel
  parameter; running out of fuel yields the artificial `Exc.outOfFuel`
  outcome, which is propagated everywhere (it corresponds to no Go
  behaviour).
-/

namespace Uddin

/-- Source position, 1-based line and column (tokenizer.go `Position`). -/
structure Position where
  line : Nat
  column : Nat
deriving DecidableEq, Repr

/-- Token kinds (tokenizer.go `Token`).  Names follow the Go constants. -/
inductive Token where
  | ILLEGAL | EOF
  | ASSIGN | COLON | COMMA | DIVIDE | DOT | GT | LBRACE | LBRACKET
  | LPAREN | LT | MINUS | MODULO | PLUS | RBRACE | RBRACKET | RPAREN
  | TIMES | QUESTION
  | END
  | EQUAL | GTE | LTE | NOTEQUAL
  | PLUSEQUAL | MINUSEQUAL | TIMESEQUAL | DIVIDEEQUAL | MODULOEQUAL
  | ELLIPSIS
  | AND | BREAK | CATCH | CONTINUE | ELSE | FALSE | FOR | FUN | IF
  | IMPORT | IN | NULL | NOT | OR | RETURN | THEN | TRUE | TRY | WHILE | XOR
  | INT | FLOAT | NAME | STR
deriving DecidableEq, Repr

/-- `keywordTokens` (tokenizer.go): keyword spelling to token. -/
def keywordTokens (s : String) : Option Token :=
  if s = "and" then some .AND
  else if s = "break" then some .BREAK
  else if s = "catch" then some .CATCH
  else if s = "continue" then some .CONTINUE
  else if s = "else" then some .ELSE
  else if s = "end" then some .END
  else if s = "false" then some .FALSE
  else if s = "for" then some .FOR
  else if s = "fun" then some .FUN
  else if s = "if" then some .IF
  else if s = "import" then some .IMPORT
  else if s = "in" then some .IN
  else if s = "null" then some .NULL
  else if s = "not" then some .NOT
  else if s = "or" then some .OR
  else if s = "return" then some .RETURN
  else if s = "then" then some .THEN
  else if s = "true" then some .TRUE
  else if s = "try" then some .TRY
  else if s = "while" then some .WHILE
  else if s = "xor" then some .XOR
  else none

/-- `tokenNames` (tokenizer.go): the `String()` rendering of each token. -/
def tokenName : Token → String
  | .ILLEGAL => "ILLEGAL"
  | .EOF => "EOF"
  | .ASSIGN => "="
  | .COLON => ":"
  | .COMMA => ","
  | .DIVIDE => "/"
  | .DOT => "."
  | .GT => ">"
  | .LBRACE => "\x7b"
  | .LBRACKET => "["
  | .LPAREN => "("
  | .LT => "<"
  | .MINUS => "-"
  | .MODULO => "%"
  | .PLUS => "+"
  | .RBRACE => "\x7d"
  | .RBRACKET => "]"
  | .RPAREN => ")"
  | .TIMES => "*"
  | .QUESTION => "?"
  | .END => "end"
  | .EQUAL => "=="
  | .GTE => ">="
  | .LTE => "<="
  | .NOTEQUAL => "!="
  | .PLUSEQUAL => "+="
  | .MINUSEQUAL => "-="
  | .TIMESEQUAL => "*="
  | .DIVIDEEQUAL => "/="
  | .MODULOEQUAL => "%="
  | .ELLIPSIS => "..."
  | .AND => "and"
  | .BREAK => "break"
  | .CATCH => "catch"
  | .CONTINUE => "continue"
  | .ELSE => "else"
  | .FALSE => "false"
  | .FOR => "for"
  | .FUN => "fun"
  | .IF => "if"
  | .IMPORT => "import"
  | .IN => "in"
  | .NULL => "null"
  | .NOT => "not"
  | .OR => "or"
  | .RETURN => "return"
  | .THEN => "then"
  | .TRUE => "true"
  | .TRY => "try"
  | .WHILE => "while"
  | .XOR => "xor"
  | .INT => "int"
  | .FLOAT => "float"
  | .NAME => "name"
  | .STR => "str"

/-- Position advance of the tokenizer's `next()`: a newline moves to the next
line and resets the column, every other character moves one column right. -/
def advancePos (p : Position) (c : Char) : Position :=
  if c = '\n' then ⟨p.line + 1, 1⟩ else ⟨p.line, p.column + 1⟩

/-- Tokenizer state: the not-yet-consumed characters (the head plays the role
of the Go tokenizer's current character `t.ch`; the empty list is `t.ch < 0`,
i.e. end of input) and the position of the head character. -/
structure TokState where
  chars : List Char
  pos : Position
deriving Repr

/-- Consume one character (the Go tokenizer's `next()`). -/
def TokState.adv : TokState → TokState
  | ⟨[], p⟩ => ⟨[], p⟩
  | ⟨c :: rest, p⟩ => ⟨rest, advancePos p c⟩

/-- `isNameStart` (tokenizer.go): `_`, `a`-`z`, `A`-`Z`. -/
def isNameStart (c : Char) : Bool :=
  c = '_' || ('a' ≤ c && c ≤ 'z') || ('A' ≤ c && c ≤ 'Z')

/-- Decimal digit test used by the tokenizer's name and number scanners. -/
def isDigitCh (c : Char) : Bool :=
  '0' ≤ c && c ≤ '9'

mutual

/-- `skipWhitespaceAndComments` (tokenizer.go).  Returns the state after the
skipped region, or the error message for an unterminated block comment.
The fuel bounds the number of consumed characters; `tokenize` always supplies
enough. -/
def skipWS : Nat → TokState → Except String TokState
  | 0, st => .ok st
  | fuel + 1, st =>
    match st.chars with
    | [] => .ok st
    | c :: rest =>
      if c = ' ' || c = '\t' || c = '\r' || c = '\n' then
        skipWS fuel st.adv
      else if c = '/' then
        -- Go peeks at the byte after the current character.
        match rest with
        | '/' :: _ =>
          -- line comment: skip both slashes, then to (and past) the newline
          skipLine fuel st.adv.adv
        | '*' :: _ =>
          -- block comment: skip the opener, then to (and past) `*/`
          skipBlock fuel st.adv.adv
        | _ => .ok st
      else .ok st

/-- Tail of a `//` comment: consume until a newline (also consuming it), then
resume `skipWS`. -/
def skipLine : Nat → TokState → Except String TokState
  | 0, st => .ok st
  | fuel + 1, st =>
    match st.chars with
    | [] => skipWS fuel st.adv
    | c :: _ =>
      if c = '\n' then skipWS fuel st.adv
      else skipLine fuel st.adv

/-- Tail of a `/* ... */` comment: consume until `*/` (consuming it), then
resume `skipWS`; end of input yields the unterminated-comment error. -/
def skipBlock : Nat → TokState → Except String TokState
  | 0, st => .ok st
  | fuel + 1, st =>
    match st.chars with
    | [] => .error "unterminated multiline comment"
    | '*' :: '/' :: _ => skipWS fuel st.adv.adv
    | _ :: _ => skipBlock fuel st.adv

end

/-- Scan the continuation of a name: `isNameStart` characters or digits. -/
def scanName (fuel : Nat) (st : TokState) (acc : List Char) : List Char × TokState :=
  match fuel with
  | 0 => (acc.reverse, st)
  | fuel + 1 =>
    match st.chars with
    | [] => (acc.reverse, st)
    | c :: _ =>
      if isNameStart c || isDigitCh c then scanName fuel st.adv (c :: acc)
      else (acc.reverse, st)

/-- Scan the continuation of a number: digits with at most one `.`; a second
`.` is the "unexpected second '.' in number" error. -/
def scanNumber (fuel : Nat) (st : TokState) (acc : List Char) (isFloat : Bool) :
    Except String (List Char × Bool × TokState) :=
  match fuel with
  | 0 => .ok (acc.reverse, isFloat, st)
  | fuel + 1 =>
    match st.chars with
    | [] => .ok (acc.reverse, isFloat, st)
    | c :: _ =>
      if isDigitCh c then scanNumber fuel st.adv (c :: acc) isFloat
      else if c = '.' then
        if isFloat then .error "unexpected second '.' in number"
        else scanNumber fuel st.adv (c :: acc) true
      else .ok (acc.reverse, isFloat, st)

/-- Scan a string literal body up to the closing `quote`.  Mirrors the Go
scanner: raw newlines are rejected, the recognised escapes are the matching
quote, backslash, `t`, `r` and `n`. -/
def scanString (fuel : Nat) (st : TokState) (quote : Char) (acc : List Char) :
    Except String (List Char × TokState) :=
  match fuel with
  | 0 => .error "didn't find end quote in string"
  | fuel + 1 =>
    match st.chars with
    | [] => .error "didn't find end quote in string"
    | c :: _ =>
      if c = quote then .ok (acc.reverse, st.adv)
      else if c = '\r' || c = '\n' then .error "can't have newline in string"
      else if c = '\\' then
        let st' := st.adv
        match st'.chars with
        | [] => .error "invalid string escape"
        | e :: _ =>
          if e = quote || e = '\\' then scanString fuel st'.adv quote (e :: acc)
          else if e = 't' then scanString fuel st'.adv quote ('\t' :: acc)
          else if e = 'r' then scanString fuel st'.adv quote ('\r' :: acc)
          else if e = 'n' then scanString fuel st'.adv quote ('\n' :: acc)
          else .error ("invalid string escape \\" ++ String.mk [e])
      else scanString fuel st.adv quote (c :: acc)

/-- One token triple as produced by `Tokenizer.Next`. -/
structure Triple where
  pos : Position
  tok : Token
  val : String
deriving DecidableEq, Repr

/-- `Tokenizer.Next` (tokenizer.go): skip whitespace and comments, then read
one token.  Returns the triple and the state after it. -/
def nextToken (fuel : Nat) (st0 : TokState) : Triple × TokState :=
  match skipWS fuel st0 with
  | .error msg =>
    -- the error is reported at the position reached by the failed skip
    (⟨st0.pos, .ILLEGAL, msg⟩, ⟨[], st0.pos⟩)
  | .ok st =>
    match st.chars with
    | [] => (⟨st.pos, .EOF, ""⟩, st)
    | c :: _ =>
      let pos := st.pos
      let st := st.adv
      if isNameStart c then
        let (cs, st') := scanName fuel st [c]
        let name := String.mk cs
        match keywordTokens name with
        | some kw => (⟨pos, kw, ""⟩, st')
        | none => (⟨pos, .NAME, name⟩, st')
      else if isDigitCh c then
        match scanNumber fuel st [c] false with
        | .error msg => (⟨pos, .ILLEGAL, msg⟩, ⟨[], pos⟩)
        | .ok (cs, isFloat, st') =>
          (⟨pos, if isFloat then .FLOAT else .INT, String.mk cs⟩, st')
      else if c = '"' || c = '\'' then
        match scanString fuel st c [] with
        | .error msg => (⟨pos, .ILLEGAL, msg⟩, ⟨[], pos⟩)
        | .ok (cs, st') => (⟨pos, .STR, String.mk cs⟩, st')
      else
        -- single- and two-character punctuation; `twoChar` pairs the Go
        -- `if t.ch == '=' { ... }` look-aheads
        let twoChar : Token → Token → Triple × TokState := fun one two =>
          match st.chars with
          | '=' :: _ => (⟨pos, two, ""⟩, st.adv)
          | _ => (⟨pos, one, ""⟩, st)
        if c = ':' then (⟨pos, .COLON, ""⟩, st)
        else if c = ',' then (⟨pos, .COMMA, ""⟩, st)
        else if c = '/' then twoChar .DIVIDE .DIVIDEEQUAL
        else if c = '{' then (⟨pos, .LBRACE, ""⟩, st)
        else if c = '[' then (⟨pos, .LBRACKET, ""⟩, st)
        else if c = '(' then (⟨pos, .LPAREN, ""⟩, st)
        else if c = '-' then twoChar .MINUS .MINUSEQUAL
        else if c = '%' then twoChar .MODULO .MODULOEQUAL
        else if c = '+' then twoChar .PLUS .PLUSEQUAL
        else if c = '}' then (⟨pos, .RBRACE, ""⟩, st)
        else if c = ']' then (⟨pos, .RBRACKET, ""⟩, st)
        else if c = ')' then (⟨pos, .RPAREN, ""⟩, st)
        else if c = '*' then twoChar .TIMES .TIMESEQUAL
        else if c = '?' then (⟨pos, .QUESTION, ""⟩, st)
        else if c = '=' then twoChar .ASSIGN .EQUAL
        else if c = '!' then
          match st.chars with
          | '=' :: _ => (⟨pos, .NOTEQUAL, ""⟩, st.adv)
          | e :: _ =>
            (⟨pos, .ILLEGAL, "expected != instead of !" ++ String.mk [e]⟩, ⟨[], pos⟩)
          | [] => (⟨pos, .ILLEGAL, "expected != instead of !"⟩, ⟨[], pos⟩)
        else if c = '<' then twoChar .LT .LTE
        else if c = '>' then twoChar .GT .GTE
        else if c = '.' then
          match st.chars with
          | '.' :: '.' :: _ => (⟨pos, .ELLIPSIS, ""⟩, st.adv.adv)
          | '.' :: _ => (⟨pos, .ILLEGAL, "unexpected .."⟩, ⟨[], pos⟩)
          | _ => (⟨pos, .DOT, ""⟩, st)
        else (⟨pos, .ILLEGAL, "unexpected " ++ String.mk [c]⟩, ⟨[], pos⟩)

/-- Run the tokenizer over the whole input: the stream of triples ending with
the first `EOF` or `ILLEGAL` triple (the parser stops at either). -/
def tokenizeFrom (fuel : Nat) (st : TokState) : List Triple :=
  match fuel with
  | 0 => []
  | fuel + 1 =>
    let (t, st') := nextToken (fuel + 1) st
    if t.tok = .EOF || t.tok = .ILLEGAL then [t]
    else t :: tokenizeFrom fuel st'

/-- Tokenize a source string (the `NewTokenizer` + repeated `Next` protocol).
The fuel `input.length + 1` per step is always sufficient since every token
consumes at least one character. -/
def tokenize (input : String) : List Triple :=
  tokenizeFrom (input.length + 1) ⟨input.data, ⟨1, 1⟩⟩

/-!  ## AST and runtime values

The AST mirrors ast.go; every node carries its position.  Runtime values
(`Value` in interpreter.go) appear inside `Literal` nodes, and user function
values capture a closure frame, so the expression, statement, value and
function types form one mutual inductive family.  An array value stands for
the Go `*[]Value` (a pointer to a slice) and an object value for the Go
`map[string]Value` (as an association list; the Go map iteration order is
nondeterministic and no verified property depends on it).  Built-in function
values are not modelled; no verified property mentions them. -/

mutual

inductive Expr where
  | literal (pos : Position) (v : Val)
  | varRef (pos : Position) (name : String)        -- ast.go `Variable`
  | binary (pos : Position) (left : Expr) (op : Token) (right : Expr)
  | unary (pos : Position) (op : Token) (operand : Expr)
  | ternary (pos : Position) (cond trueExpr falseExpr : Expr)
  | call (pos : Position) (fn : Expr) (args : List Expr) (ellipsis : Bool)
  | list (pos : Position) (vals : List Expr)
  | mapLit (pos : Position) (items : List (Expr × Expr))  -- ast.go `Map`
  | subscript (pos : Position) (container sub : Expr)
  | funExpr (pos : Position) (params : List String) (ellipsis : Bool)
      (body : List Stmt)

inductive Stmt where
  | assign (pos : Position) (target : Expr) (value : Expr)
  | ifStmt (pos : Position) (cond : Expr) (body elseBody : List Stmt)
  | whileStmt (pos : Position) (cond : Expr) (body : List Stmt)
  | forStmt (pos : Position) (name : String) (iterable : Expr)
      (body : List Stmt)
  | tryCatch (pos : Position) (tryBlock : List Stmt) (errVar : String)
      (catchBlock : List Stmt)
  | exprStmt (pos : Position) (e : Expr)
  | funDef (pos : Position) (name : String) (params : List String)
      (ellipsis : Bool) (body : List Stmt)
  | ret (pos : Position) (result : Expr)           -- ast.go `Return`
  | brk (pos : Position)                           -- ast.go `Break`
  | cont (pos : Position)                          -- ast.go `Continue`
  | importStmt (pos : Position) (filename : String)

inductive Val where
  | null
  | bool (b : Bool)
  | int (n : Int)
  | float (q : Rat)
  | str (s : String)
  | arr (elems : List Val)
  | obj (pairs : List (String × Val))
  | fn (f : UserFn)

inductive UserFn where
  | mk (name : String) (params : List String) (ellipsis : Bool)
      (body : List Stmt) (closure : List (String × Val))

end

/-- Statement block (ast.go `Block`). -/
abbrev Block := List Stmt

def UserFn.name : UserFn → String
  | .mk n _ _ _ _ => n

def UserFn.params : UserFn → List String
  | .mk _ p _ _ _ => p

def UserFn.ellipsis : UserFn → Bool
  | .mk _ _ e _ _ => e

def UserFn.body : UserFn → Block
  | .mk _ _ _ b _ => b

def UserFn.closure : UserFn → List (String × Val)
  | .mk _ _ _ _ c => c

def Expr.positionOf : Expr → Position
  | .literal p _ => p
  | .varRef p _ => p
  | .binary p _ _ _ => p
  | .unary p _ _ => p
  | .ternary p _ _ _ => p
  | .call p _ _ _ => p
  | .list p _ => p
  | .mapLit p _ => p
  | .subscript p _ _ => p
  | .funExpr p _ _ _ => p

/-!  ## Parser

parser.go: recursive descent with one lookahead token.  The parser state
holds the current triple and the remaining stream; `pAdvance` is `p.next()`
(raising a parse error on an `ILLEGAL` token).  Every parsing function takes
fuel and recursion always decreases it; `ParseProgram` supplies enough fuel
for any input (the Go parser always terminates because every layer of the
expression ladder eventually consumes a token). -/

/-- Parse error (parser.go `Error`): position and message. -/
structure PErr where
  pos : Position
  msg : String
deriving DecidableEq, Repr

structure PState where
  cur : Triple
  rest : List Triple
deriving Repr

/-- `p.next()`: pop the next triple; `ILLEGAL` raises its message as a
parse error.  An exhausted stream keeps returning `EOF` like the Go
tokenizer does. -/
def pAdvance (st : PState) : Except PErr PState :=
  match st.rest with
  | [] => .ok ⟨⟨st.cur.pos, .EOF, ""⟩, []⟩
  | t :: ts =>
    if t.tok = .ILLEGAL then .error ⟨t.pos, t.val⟩
    else .ok ⟨t, ts⟩

/-- `p.expect(tok)`: check the current token kind and advance. -/
def pExpect (st : PState) (tok : Token) : Except PErr PState :=
  if st.cur.tok = tok then pAdvance st
  else .error ⟨st.cur.pos, "expected " ++ tokenName tok ++ " and not " ++
      tokenName st.cur.tok⟩

/-- `strconv.Atoi` on the digit runs the tokenizer produces. -/
def parseIntLit (s : String) : Int :=
  Int.ofNat (s.data.foldl (fun acc c => acc * 10 + (c.toNat - '0'.toNat)) 0)

/-- Split a FLOAT lexeme at its (single) dot. -/
def splitAtDot : List Char → List Char × Option (List Char)
  | [] => ([], none)
  | c :: rest =>
    if c = '.' then ([], some rest)
    else
      let (w, f) := splitAtDot rest
      (c :: w, f)

/-- `strconv.ParseFloat` on the tokenizer's FLOAT lexemes (digits with one
dot), as an exact rational. -/
def parseFloatLit (s : String) : Rat :=
  match splitAtDot s.data with
  | (w, none) => (parseIntLit (String.mk w) : Rat)
  | (w, some f) =>
    (parseIntLit (String.mk w) : Rat) +
      (parseIntLit (String.mk f) : Rat) / ((10 : Rat) ^ f.length)

mutual

/-- `parser.expression`: `xor (OR xor)*` (one instance of `parser.binary`,
the generic left-associative ladder step, specialised to its operator set;
the same shape recurs for each precedence level below). -/
def pExpression (fuel : Nat) (st : PState) : Except PErr (Expr × PState) :=
  match fuel with
  | 0 => .error ⟨st.cur.pos, "parser out of fuel"⟩
  | fuel + 1 => do
    let (e, st) ← pXor fuel st
    pExpressionLoop fuel e st

def pExpressionLoop (fuel : Nat) (acc : Expr) (st : PState) :
    Except PErr (Expr × PState) :=
  match fuel with
  | 0 => .error ⟨st.cur.pos, "parser out of fuel"⟩
  | fuel + 1 =>
    if st.cur.tok = .OR then do
      let pos := st.cur.pos
      let st ← pAdvance st
      let (right, st) ← pXor fuel st
      pExpressionLoop fuel (.binary pos acc .OR right) st
    else .ok (acc, st)

/-- `parser.xor`: `and (XOR and)*`. -/
def pXor (fuel : Nat) (st : PState) : Except PErr (Expr × PState) :=
  match fuel with
  | 0 => .error ⟨st.cur.pos, "parser out of fuel"⟩
  | fuel + 1 => do
    let (e, st) ← pAnd fuel st
    pXorLoop fuel e st

def pXorLoop (fuel : Nat) (acc : Expr) (st : PState) :
    Except PErr (Expr × PState) :=
  match fuel with
  | 0 => .error ⟨st.cur.pos, "parser out of fuel"⟩
  | fuel + 1 =>
    if st.cur.tok = .XOR then do
      let pos := st.cur.pos
      let st ← pAdvance st
      let (right, st) ← pAnd fuel st
      pXorLoop fuel (.binary pos acc .XOR right) st
    else .ok (acc, st)

/-- `parser.and`: `not (AND not)*`. -/
def pAnd (fuel : Nat) (st : PState) : Except PErr (Expr × PState) :=
  match fuel with
  | 0 => .error ⟨st.cur.pos, "parser out of fuel"⟩
  | fuel + 1 => do
    let (e, st) ← pNot fuel st
    pAndLoop fuel e st

def pAndLoop (fuel : Nat) (acc : Expr) (st : PState) :
    Except PErr (Expr × PState) :=
  match fuel with
  | 0 => .error ⟨st.cur.pos, "parser out of fuel"⟩
  | fuel + 1 =>
    if st.cur.tok = .AND then do
      let pos := st.cur.pos
      let st ← pAdvance st
      let (right, st) ← pNot fuel st
      pAndLoop fuel (.binary pos acc .AND right) st
    else .ok (acc, st)

/-- `parser.not`: `NOT not | ternary`. -/
def pNot (fuel : Nat) (st : PState) : Except PErr (Expr × PState) :=
  match fuel with
  | 0 => .error ⟨st.cur.pos, "parser out of fuel"⟩
  | fuel + 1 =>
    if st.cur.tok = .NOT then do
      let pos := st.cur.pos
      let st ← pAdvance st
      let (operand, st) ← pNot fuel st
      .ok (.unary pos .NOT operand, st)
    else pTernary fuel st

/-- `parser.ternary`: `equality (QUESTION expression COLON expression)?` —
note that the branches restart at `expression`, and the condition is only an
`equality`, so `? :` binds tighter than `and`/`xor`/`or`. -/
def pTernary (fuel : Nat) (st : PState) : Except PErr (Expr × PState) :=
  match fuel with
  | 0 => .error ⟨st.cur.pos, "parser out of fuel"⟩
  | fuel + 1 => do
    let (e, st) ← pEquality fuel st
    if st.cur.tok = .QUESTION then do
      let pos := st.cur.pos
      let st ← pAdvance st
      let (trueExpr, st) ← pExpression fuel st
      if st.cur.tok = .COLON then do
        let st ← pAdvance st
        let (falseExpr, st) ← pExpression fuel st
        .ok (.ternary pos e trueExpr falseExpr, st)
      else .error ⟨st.cur.pos, "expected : in ternary expression"⟩
    else .ok (e, st)

/-- `parser.equality`: `comparison ((EQUAL | NOTEQUAL) comparison)*`. -/
def pEquality (fuel : Nat) (st : PState) : Except PErr (Expr × PState) :=
  match fuel with
  | 0 => .error ⟨st.cur.pos, "parser out of fuel"⟩
  | fuel + 1 => do
    let (e, st) ← pComparison fuel st
    pEqualityLoop fuel e st

def pEqualityLoop (fuel : Nat) (acc : Expr) (st : PState) :
    Except PErr (Expr × PState) :=
  match fuel with
  | 0 => .error ⟨st.cur.pos, "parser out of fuel"⟩
  | fuel + 1 =>
    if st.cur.tok = .EQUAL ∨ st.cur.tok = .NOTEQUAL then do
      let op := st.cur.tok
      let pos := st.cur.pos
      let st ← pAdvance st
      let (right, st) ← pComparison fuel st
      pEqualityLoop fuel (.binary pos acc op right) st
    else .ok (acc, st)

/-- `parser.comparison`: `addition ((LT|LTE|GT|GTE|IN) addition)*`. -/
def pComparison (fuel : Nat) (st : PState) : Except PErr (Expr × PState) :=
  match fuel with
  | 0 => .error ⟨st.cur.pos, "parser out of fuel"⟩
  | fuel + 1 => do
    let (e, st) ← pAddition fuel st
    pComparisonLoop fuel e st

def pComparisonLoop (fuel : Nat) (acc : Expr) (st : PState) :
    Except PErr (Expr × PState) :=
  match fuel with
  | 0 => .error ⟨st.cur.pos, "parser out of fuel"⟩
  | fuel + 1 =>
    if st.cur.tok = .LT ∨ st.cur.tok = .LTE ∨ st.cur.tok = .GT ∨
        st.cur.tok = .GTE ∨ st.cur.tok = .IN then do
      let op := st.cur.tok
      let pos := st.cur.pos
      let st ← pAdvance st
      let (right, st) ← pAddition fuel st
      pComparisonLoop fuel (.binary pos acc op right) st
    else .ok (acc, st)

/-- `parser.addition`: `multiply ((PLUS | MINUS) multiply)*`. -/
def pAddition (fuel : Nat) (st : PState) : Except PErr (Expr × PState) :=
  match fuel with
  | 0 => .error ⟨st.cur.pos, "parser out of fuel"⟩
  | fuel + 1 => do
    let (e, st) ← pMultiply fuel st
    pAdditionLoop fuel e st

def pAdditionLoop (fuel : Nat) (acc : Expr) (st : PState) :
    Except PErr (Expr × PState) :=
  match fuel with
  | 0 => .error ⟨st.cur.pos, "parser out of fuel"⟩
  | fuel + 1 =>
    if st.cur.tok = .PLUS ∨ st.cur.tok = .MINUS then do
      let op := st.cur.tok
      let pos := st.cur.pos
      let st ← pAdvance st
      let (right, st) ← pMultiply fuel st
      pAdditionLoop fuel (.binary pos acc op right) st
    else .ok (acc, st)

/-- `parser.multiply`: `negative ((TIMES | DIVIDE | MODULO) negative)*`. -/
def pMultiply (fuel : Nat) (st : PState) : Except PErr (Expr × PState) :=
  match fuel with
  | 0 => .error ⟨st.cur.pos, "parser out of fuel"⟩
  | fuel + 1 => do
    let (e, st) ← pNegative fuel st
    pMultiplyLoop fuel e st

def pMultiplyLoop (fuel : Nat) (acc : Expr) (st : PState) :
    Except PErr (Expr × PState) :=
  match fuel with
  | 0 => .error ⟨st.cur.pos, "parser out of fuel"⟩
  | fuel + 1 =>
    if st.cur.tok = .TIMES ∨ st.cur.tok = .DIVIDE ∨ st.cur.tok = .MODULO then do
      let op := st.cur.tok
      let pos := st.cur.pos
      let st ← pAdvance st
      let (right, st) ← pNegative fuel st
      pMultiplyLoop fuel (.binary pos acc op right) st
    else .ok (acc, st)

/-- `parser.negative`: `MINUS negative | call`. -/
def pNegative (fuel : Nat) (st : PState) : Except PErr (Expr × PState) :=
  match fuel with
  | 0 => .error ⟨st.cur.pos, "parser out of fuel"⟩
  | fuel + 1 =>
    if st.cur.tok = .MINUS then do
      let pos := st.cur.pos
      let st ← pAdvance st
      let (operand, st) ← pNegative fuel st
      .ok (.unary pos .MINUS operand, st)
    else pCall fuel st

/-- `parser.call`: `primary (args | subscript | dot)*`. -/
def pCall (fuel : Nat) (st : PState) : Except PErr (Expr × PState) :=
  match fuel with
  | 0 => .error ⟨st.cur.pos, "parser out of fuel"⟩
  | fuel + 1 => do
    let (e, st) ← pPrimary fuel st
    pCallLoop fuel e st

def pCallLoop (fuel : Nat) (acc : Expr) (st : PState) : Except PErr (Expr × PState) :=
  match fuel with
  | 0 => .error ⟨st.cur.pos, "parser out of fuel"⟩
  | fuel + 1 =>
    match st.cur.tok with
    | .LPAREN => do
      let pos := st.cur.pos
      let st ← pAdvance st
      let (args, ellipsis, st) ← pArgs fuel st true false []
      let st ← pExpect st .RPAREN
      pCallLoop fuel (.call pos acc args ellipsis) st
    | .LBRACKET => do
      let pos := st.cur.pos
      let st ← pAdvance st
      let (sub, st) ← pExpression fuel st
      let st ← pExpect st .RBRACKET
      pCallLoop fuel (.subscript pos acc sub) st
    | .DOT => do
      let pos := st.cur.pos
      let st ← pAdvance st
      -- the dot form lowers to a subscript whose index is a string literal;
      -- note the Go code takes the literal's position after advancing
      let litPos := st.cur.pos
      let name := st.cur.val
      let st ← pExpect st .NAME
      pCallLoop fuel (.subscript pos acc (.literal litPos (.str name))) st
    | _ => .ok (acc, st)

/-- Argument list of a call: `expression (COMMA expression)* ELLIPSIS? COMMA?`.
Mirrors the Go loop with its `gotComma` / `gotEllipsis` flags. -/
def pArgs (fuel : Nat) (st : PState) (gotComma gotEllipsis : Bool)
    (acc : List Expr) : Except PErr (List Expr × Bool × PState) :=
  match fuel with
  | 0 => .error ⟨st.cur.pos, "parser out of fuel"⟩
  | fuel + 1 =>
    if st.cur.tok ≠ .RPAREN ∧ st.cur.tok ≠ .EOF ∧ ¬gotEllipsis then do
      if ¬gotComma then .error ⟨st.cur.pos, "expected , between arguments"⟩
      else do
        let (arg, st) ← pExpression fuel st
        let (gotEllipsis, st) ←
          if st.cur.tok = .ELLIPSIS then do
            let st ← pAdvance st
            pure (true, st)
          else pure (false, st)
        let (gotComma, st) ←
          if st.cur.tok = .COMMA then do
            let st ← pAdvance st
            pure (true, st)
          else pure (false, st)
        pArgs fuel st gotComma gotEllipsis (acc ++ [arg])
    else
      if st.cur.tok ≠ .RPAREN ∧ gotEllipsis then
        .error ⟨st.cur.pos, "can only have ... after last argument"⟩
      else .ok (acc, gotEllipsis, st)

/-- `parser.primary`. -/
def pPrimary (fuel : Nat) (st : PState) : Except PErr (Expr × PState) :=
  match fuel with
  | 0 => .error ⟨st.cur.pos, "parser out of fuel"⟩
  | fuel + 1 =>
    match st.cur.tok with
    | .NAME => do
      let name := st.cur.val
      let pos := st.cur.pos
      let st ← pAdvance st
      .ok (.varRef pos name, st)
    | .INT => do
      let v := st.cur.val
      let pos := st.cur.pos
      let st ← pAdvance st
      .ok (.literal pos (.int (parseIntLit v)), st)
    | .FLOAT => do
      let v := st.cur.val
      let pos := st.cur.pos
      let st ← pAdvance st
      .ok (.literal pos (.float (parseFloatLit v)), st)
    | .STR => do
      let v := st.cur.val
      let pos := st.cur.pos
      let st ← pAdvance st
      .ok (.literal pos (.str v), st)
    | .TRUE => do
      let pos := st.cur.pos
      let st ← pAdvance st
      .ok (.literal pos (.bool true), st)
    | .FALSE => do
      let pos := st.cur.pos
      let st ← pAdvance st
      .ok (.literal pos (.bool false), st)
    | .NULL => do
      let pos := st.cur.pos
      let st ← pAdvance st
      .ok (.literal pos .null, st)
    | .LBRACKET => pList fuel st
    | .LBRACE => pMap fuel st
    | .FUN => do
      let pos := st.cur.pos
      let st ← pAdvance st
      let (args, ellipsis, st) ← pParams fuel st
      let (body, st) ← pBlock fuel st
      .ok (.funExpr pos args ellipsis body, st)
    | .LPAREN => do
      let st ← pAdvance st
      let (e, st) ← pExpression fuel st
      let st ← pExpect st .RPAREN
      .ok (e, st)
    | _ => .error ⟨st.cur.pos, "expected expression, not " ++ tokenName st.cur.tok⟩

/-- `parser.list`: `LBRACKET ... RBRACKET` with optional trailing comma. -/
def pList (fuel : Nat) (st : PState) : Except PErr (Expr × PState) :=
  match fuel with
  | 0 => .error ⟨st.cur.pos, "parser out of fuel"⟩
  | fuel + 1 => do
    let pos := st.cur.pos
    let st ← pExpect st .LBRACKET
    let (vals, st) ← pListItems fuel st true []
    let st ← pExpect st .RBRACKET
    .ok (.list pos vals, st)

def pListItems (fuel : Nat) (st : PState) (gotComma : Bool) (acc : List Expr) :
    Except PErr (List Expr × PState) :=
  match fuel with
  | 0 => .error ⟨st.cur.pos, "parser out of fuel"⟩
  | fuel + 1 =>
    if st.cur.tok ≠ .RBRACKET ∧ st.cur.tok ≠ .EOF then do
      if ¬gotComma then .error ⟨st.cur.pos, "expected , between list elements"⟩
      else do
        let (v, st) ← pExpression fuel st
        let (gotComma, st) ←
          if st.cur.tok = .COMMA then do
            let st ← pAdvance st
            pure (true, st)
          else pure (false, st)
        pListItems fuel st gotComma (acc ++ [v])
    else .ok (acc, st)

/-- `parser.map_`: `LBRACE (key COLON value ,)* RBRACE`. -/
def pMap (fuel : Nat) (st : PState) : Except PErr (Expr × PState) :=
  match fuel with
  | 0 => .error ⟨st.cur.pos, "parser out of fuel"⟩
  | fuel + 1 => do
    let pos := st.cur.pos
    let st ← pExpect st .LBRACE
    let (items, st) ← pMapItems fuel st true []
    let st ← pExpect st .RBRACE
    .ok (.mapLit pos items, st)

def pMapItems (fuel : Nat) (st : PState) (gotComma : Bool)
    (acc : List (Expr × Expr)) : Except PErr (List (Expr × Expr) × PState) :=
  match fuel with
  | 0 => .error ⟨st.cur.pos, "parser out of fuel"⟩
  | fuel + 1 =>
    if st.cur.tok ≠ .RBRACE ∧ st.cur.tok ≠ .EOF then do
      if ¬gotComma then .error ⟨st.cur.pos, "expected , between object items"⟩
      else do
        let (key, st) ← pMapKey fuel st
        let st ← pExpect st .COLON
        let (v, st) ← pExpression fuel st
        let (gotComma, st) ←
          if st.cur.tok = .COMMA then do
            let st ← pAdvance st
            pure (true, st)
          else pure (false, st)
        pMapItems fuel st gotComma (acc ++ [(key, v)])
    else .ok (acc, st)

/-- `parser.mapKey`: a bare identifier key is lowered to a string literal. -/
def pMapKey (fuel : Nat) (st : PState) : Except PErr (Expr × PState) :=
  match fuel with
  | 0 => .error ⟨st.cur.pos, "parser out of fuel"⟩
  | fuel + 1 =>
    match st.cur.tok with
    | .NAME => do
      let name := st.cur.val
      let pos := st.cur.pos
      let st ← pAdvance st
      .ok (.literal pos (.str name), st)
    | _ => pExpression fuel st

/-- `parser.params`: parenthesised parameter names, last may carry `...`. -/
def pParams (fuel : Nat) (st : PState) : Except PErr (List String × Bool × PState) :=
  match fuel with
  | 0 => .error ⟨st.cur.pos, "parser out of fuel"⟩
  | fuel + 1 => do
    let st ← pExpect st .LPAREN
    let (params, gotEllipsis, st) ← pParamsLoop fuel st true false []
    if st.cur.tok ≠ .RPAREN ∧ gotEllipsis then
      .error ⟨st.cur.pos, "can only have ... after last parameter"⟩
    else do
      let st ← pExpect st .RPAREN
      .ok (params, gotEllipsis, st)

def pParamsLoop (fuel : Nat) (st : PState) (gotComma gotEllipsis : Bool)
    (acc : List String) : Except PErr (List String × Bool × PState) :=
  match fuel with
  | 0 => .error ⟨st.cur.pos, "parser out of fuel"⟩
  | fuel + 1 =>
    if st.cur.tok ≠ .RPAREN ∧ st.cur.tok ≠ .EOF ∧ ¬gotEllipsis then do
      if ¬gotComma then .error ⟨st.cur.pos, "expected , between parameters"⟩
      else do
        let param := st.cur.val
        let st ← pExpect st .NAME
        let (gotEllipsis, st) ←
          if st.cur.tok = .ELLIPSIS then do
            let st ← pAdvance st
            pure (true, st)
          else pure (false, st)
        let (gotComma, st) ←
          if st.cur.tok = .COMMA then do
            let st ← pAdvance st
            pure (true, st)
          else pure (false, st)
        pParamsLoop fuel st gotComma gotEllipsis (acc ++ [param])
    else .ok (acc, gotEllipsis, st)

/-- `parser.block`: `{ statement* }` or `: statement* end` (in the `:` form
the statements run until `end`, `else` or `catch`, and `end` is consumed if
present). -/
def pBlock (fuel : Nat) (st : PState) : Except PErr (Block × PState) :=
  match fuel with
  | 0 => .error ⟨st.cur.pos, "parser out of fuel"⟩
  | fuel + 1 =>
    match st.cur.tok with
    | .LBRACE => do
      let st ← pAdvance st
      let (body, st) ← pStatements fuel [.RBRACE] st []
      let st ← pExpect st .RBRACE
      .ok (body, st)
    | .COLON => do
      let st ← pAdvance st
      let (stmts, st) ← pStatements fuel [.END, .ELSE, .CATCH] st []
      if st.cur.tok = .END then do
        let st ← pExpect st .END
        .ok (stmts, st)
      else .ok (stmts, st)
    | _ => .error ⟨st.cur.pos, "expected \x7b or :, not " ++ tokenName st.cur.tok⟩

/-- `parser.statements(end)`: statements until one of the terminators or
`EOF`. -/
def pStatements (fuel : Nat) (stop : List Token) (st : PState) (acc : Block) :
    Except PErr (Block × PState) :=
  match fuel with
  | 0 => .error ⟨st.cur.pos, "parser out of fuel"⟩
  | fuel + 1 =>
    if ¬ stop.contains st.cur.tok ∧ st.cur.tok ≠ .EOF then do
      let (s, st) ← pStatement fuel st
      pStatements fuel stop st (acc ++ [s])
    else .ok (acc, st)

/-- `parser.statement`. -/
def pStatement (fuel : Nat) (st : PState) : Except PErr (Stmt × PState) :=
  match fuel with
  | 0 => .error ⟨st.cur.pos, "parser out of fuel"⟩
  | fuel + 1 =>
    match st.cur.tok with
    | .IF => pIf fuel st
    | .WHILE => do
      let pos := st.cur.pos
      let st ← pExpect st .WHILE
      let st ← pExpect st .LPAREN
      let (cond, st) ← pExpression fuel st
      let st ← pExpect st .RPAREN
      let (body, st) ← pBlock fuel st
      .ok (.whileStmt pos cond body, st)
    | .FOR => do
      let pos := st.cur.pos
      let st ← pExpect st .FOR
      let st ← pExpect st .LPAREN
      let name := st.cur.val
      let st ← pExpect st .NAME
      let st ← pExpect st .IN
      let (iterable, st) ← pExpression fuel st
      let st ← pExpect st .RPAREN
      let (body, st) ← pBlock fuel st
      .ok (.forStmt pos name iterable body, st)
    | .RETURN => do
      let pos := st.cur.pos
      let st ← pExpect st .RETURN
      let (result, st) ← pExpression fuel st
      .ok (.ret pos result, st)
    | .BREAK => do
      let pos := st.cur.pos
      let st ← pExpect st .BREAK
      .ok (.brk pos, st)
    | .CONTINUE => do
      let pos := st.cur.pos
      let st ← pExpect st .CONTINUE
      .ok (.cont pos, st)
    | .IMPORT => do
      let pos := st.cur.pos
      let st ← pExpect st .IMPORT
      if st.cur.tok = .STR then do
        let filename := st.cur.val
        let st ← pAdvance st
        .ok (.importStmt pos filename, st)
      else
        .error ⟨st.cur.pos, "expected string filename after import, got " ++
          tokenName st.cur.tok⟩
    | .FUN => do
      let pos := st.cur.pos
      let st ← pExpect st .FUN
      if st.cur.tok = .NAME then do
        let name := st.cur.val
        let st ← pAdvance st
        let (params, ellipsis, st) ← pParams fuel st
        let (body, st) ← pBlock fuel st
        .ok (.funDef pos name params ellipsis body, st)
      else do
        let (params, ellipsis, st) ← pParams fuel st
        let (body, st) ← pBlock fuel st
        .ok (.exprStmt pos (.funExpr pos params ellipsis body), st)
    | .TRY => do
      let pos := st.cur.pos
      let st ← pExpect st .TRY
      let (tryBlock, st) ←
        match st.cur.tok with
        | .LBRACE => do
          let st ← pAdvance st
          let (b, st) ← pStatements fuel [.RBRACE] st []
          let st ← pExpect st .RBRACE
          pure (b, st)
        | .COLON => do
          let st ← pAdvance st
          pStatements fuel [.CATCH] st []
        | _ => .error ⟨st.cur.pos, "expected \x7b or :, not " ++ tokenName st.cur.tok⟩
      let st ← pExpect st .CATCH
      let st ← pExpect st .LPAREN
      let errVar := st.cur.val
      let st ← pExpect st .NAME
      let st ← pExpect st .RPAREN
      let (catchBlock, st) ← pBlock fuel st
      .ok (.tryCatch pos tryBlock errVar catchBlock, st)
    | _ => do
      let pos := st.cur.pos
      let (e, st) ← pExpression fuel st
      if st.cur.tok = .ASSIGN then
        match e with
        | .varRef _ _ | .subscript _ _ _ => do
          let pos := st.cur.pos
          let st ← pAdvance st
          let (v, st) ← pExpression fuel st
          .ok (.assign pos e v, st)
        | _ =>
          .error ⟨st.cur.pos,
            "expected name, subscript, or dot expression on left side of ="⟩
      else .ok (.exprStmt pos e, st)

/-- `parser.if_`: condition, `then` block and optional `else` / `else if`. -/
def pIf (fuel : Nat) (st : PState) : Except PErr (Stmt × PState) :=
  match fuel with
  | 0 => .error ⟨st.cur.pos, "parser out of fuel"⟩
  | fuel + 1 => do
    let pos := st.cur.pos
    let st ← pExpect st .IF
    let st ← pExpect st .LPAREN
    let (cond, st) ← pExpression fuel st
    let st ← pExpect st .RPAREN
    let st ← pExpect st .THEN
    let (body, st) ← pBlock fuel st
    if st.cur.tok = .ELSE then do
      let st ← pAdvance st
      match st.cur.tok with
      | .LBRACE | .COLON => do
        let (elseBody, st) ← pBlock fuel st
        .ok (.ifStmt pos cond body elseBody, st)
      | .IF => do
        let (inner, st) ← pIf fuel st
        .ok (.ifStmt pos cond body [inner], st)
      | _ =>
        .error ⟨st.cur.pos, "expected \x7b or : or if after else, not " ++
          tokenName st.cur.tok⟩
    else .ok (.ifStmt pos cond body [], st)

end

/-- `ParseProgram` (parser.go): tokenize, prime the lookahead, parse
`statement*` up to `EOF`.  The fuel is proportional to the token count; the
constant 32 covers the fuel the precedence ladder consumes per token. -/
def ParseProgram (input : String) : Except PErr Block := do
  let toks := tokenize input
  match toks with
  | [] => .ok []
  | t :: ts => do
    let st ← (if t.tok = .ILLEGAL then .error ⟨t.pos, t.val⟩
              else .ok (⟨t, ts⟩ : PState))
    let (b, _) ← pStatements (32 * (toks.length + 1)) [] st []
    .ok b

/-- `ParseExpression` (parser.go): tokenize, prime, parse one expression. -/
def ParseExpression (input : String) : Except PErr Expr := do
  let toks := tokenize input
  match toks with
  | [] => .error ⟨⟨1, 1⟩, "expected expression, not EOF"⟩
  | t :: ts => do
    let st ← (if t.tok = .ILLEGAL then .error ⟨t.pos, t.val⟩
              else .ok (⟨t, ts⟩ : PState))
    let (e, _) ← pExpression (32 * (toks.length + 1)) st
    .ok e

/-!  ## Runtime exceptions

The Go evaluator signals non-normal outcomes with `panic`: the positioned
error structs of errors.go, `returnResult`, `BreakException`,
`ContinueException`, and ordinary Go runtime panics (for example the slice
bounds panic in `userFunction.call`).  `Exc` collects all of them.
`outOfFuel` is an artefact of the fuel-based embedding with no Go
counterpart; it is propagated through every construct, including
`try`/`catch`. -/

inductive Exc where
  | typeErr (pos : Position) (msg : String)
  | valueErr (pos : Position) (msg : String)
  | nameErr (pos : Position) (msg : String)
  | runtimeErr (pos : Position) (msg : String)
  | breakExc (pos : Position)            -- BreakException
  | continueExc (pos : Position)         -- ContinueException
  | returnExc (v : Val) (pos : Position) -- returnResult
  | hostPanic (msg : String)             -- Go runtime panics / string panics
  | outOfFuel

def Exc.isReturn : Exc → Bool
  | .returnExc _ _ => true
  | _ => false

/-- Decimal rendering of a Go `int` (`%d`). -/
def intRepr (n : Int) : String :=
  if n < 0 then "-" ++ Nat.repr n.natAbs else Nat.repr n.natAbs

def posStr (p : Position) : String :=
  Nat.repr p.line ++ ":" ++ Nat.repr p.column

/-- The `Error()` rendering of each panic value, as bound to a `catch`
variable (errors.go).  `returnExc` is re-panicked before being rendered and
`outOfFuel` is an artefact, so their strings are never observable. -/
def errString : Exc → String
  | .typeErr p m => "type error at " ++ posStr p ++ ": " ++ m
  | .valueErr p m => "value error at " ++ posStr p ++ ": " ++ m
  | .nameErr p m => "name error at " ++ posStr p ++ ": " ++ m
  | .runtimeErr p m => "runtime error at " ++ posStr p ++ ": " ++ m
  | .breakExc p => "break at " ++ posStr p
  | .continueExc p => "continue at " ++ posStr p
  | .returnExc _ _ => ""
  | .hostPanic m => m
  | .outOfFuel => ""

/-!  ## Value helpers -/

/-- Go `%q` quoting of one rune (strconv), restricted to what `Quote` does on
ASCII: the quote and backslash are backslash-escaped, printable ASCII is kept,
the named control escapes are used, and remaining ASCII control characters
(and DEL) become `\xNN`.  Non-ASCII runes are kept as-is, approximating
`strconv.IsPrint` by "printable" (the Unicode tables behind `IsPrint` are not
reproduced; no verified property depends on the rendering of non-ASCII
keys). -/
def escRune (c : Char) : List Char :=
  if c = '"' ∨ c = '\\' then ['\\', c]
  else if 0x20 ≤ c.toNat ∧ c.toNat ≤ 0x7e then [c]
  else if c.toNat = 0x07 then ['\\', 'a']
  else if c.toNat = 0x08 then ['\\', 'b']
  else if c.toNat = 0x0c then ['\\', 'f']
  else if c = '\n' then ['\\', 'n']
  else if c = '\r' then ['\\', 'r']
  else if c = '\t' then ['\\', 't']
  else if c.toNat = 0x0b then ['\\', 'v']
  else if c.toNat < 0x80 then
    ['\\', 'x', Nat.digitChar (c.toNat / 16), Nat.digitChar (c.toNat % 16)]
  else [c]

/-- Go `%q` of a string: quoted and escaped, as a character list. -/
def goQuoteData (s : String) : List Char :=
  '"' :: s.data.flatMap escRune ++ ['"']

def goQuote (s : String) : String :=
  String.mk (goQuoteData s)

/-- `typeName` (functions.go): the language-level type names. -/
def typeName : Val → String
  | .null => "nullable"
  | .bool _ => "boolean"
  | .int _ => "integer"
  | .float _ => "float"
  | .str _ => "string"
  | .arr _ => "array"
  | .obj _ => "object"
  | .fn _ => "function"

/-- The Go `%T` rendering of a runtime value's dynamic type, used in a few
error messages (for example `evalMinus`). -/
def goType : Val → String
  | .null => "<nil>"
  | .bool _ => "bool"
  | .int _ => "int"
  | .float _ => "float64"
  | .str _ => "string"
  | .arr _ => "*[]interpreter.Value"
  | .obj _ => "map[string]interpreter.Value"
  | .fn _ => "*interpreter.userFunction"

/-- `IsTruthy` (values.go).  The Go switch has a `case []Value`, but every
runtime array is represented as `*[]Value` (see `interp.evaluate`, `*List`
case), which that case does not match, so array values fall through to the
`default: return true` branch.  Objects are `map[string]Value` and do match
their case. -/
def IsTruthy : Val → Bool
  | .null => false
  | .bool b => b
  | .int n => decide (n ≠ 0)
  | .float q => decide (q ≠ 0)
  | .str s => decide (0 < s.length)
  | .arr _ => true
  | .obj pairs => decide (0 < pairs.length)
  | .fn _ => true

/-- First-match association-list lookup, modelling Go map indexing. -/
def objLookup (pairs : List (String × Val)) (k : String) : Option Val :=
  match pairs with
  | [] => none
  | (k', v) :: rest => if k' = k then some v else objLookup rest k

/-- Go map store: overwrite an existing binding or add a new one. -/
def objSet (pairs : List (String × Val)) (k : String) (v : Val) :
    List (String × Val) :=
  match pairs with
  | [] => [(k, v)]
  | (k', v') :: rest =>
    if k' = k then (k, v) :: rest else (k', v') :: objSet rest k v

mutual

/-- `evalEqual` (interpreter.go): deep, heterogeneous equality.  Mixed
int/float comparisons promote to float.  The Go function compares function
values by pointer identity, which has no counterpart without a heap; the
embedding makes distinct function expressions never equal (`false`), which no
verified property exercises. -/
def evalEqual : Val → Val → Bool
  | .null, r => match r with | .null => true | _ => false
  | .bool l, .bool r => l == r
  | .int l, .int r => l == r
  | .int l, .float r => (l : Rat) == r
  | .float l, .float r => l == r
  | .float l, .int r => l == (r : Rat)
  | .str l, .str r => l == r
  | .arr l, .arr r => evalEqualList l r
  | .obj l, .obj r => l.length == r.length && evalEqualPairs l r
  | .fn _, .fn _ => false
  | _, _ => false

def evalEqualList : List Val → List Val → Bool
  | [], [] => true
  | l :: ls, r :: rs => evalEqual l r && evalEqualList ls rs
  | _, _ => false

/-- Object equality body: every key of the left map compares equal to the
right map's binding (a missing key reads as the zero value, Go `nil`). -/
def evalEqualPairs : List (String × Val) → List (String × Val) → Bool
  | [], _ => true
  | (k, v) :: rest, r =>
    evalEqual v ((objLookup r k).getD .null) && evalEqualPairs rest r

end

mutual

/-- `evalLess` (interpreter.go): `<` on numbers (with promotion), strings,
and arrays (lexicographic with length tiebreaker); anything else is the
comparison type error. -/
def evalLess (pos : Position) : Val → Val → Except Exc Bool
  | .int l, .int r => .ok (decide (l < r))
  | .int l, .float r => .ok (decide ((l : Rat) < r))
  | .float l, .float r => .ok (decide (l < r))
  | .float l, .int r => .ok (decide (l < (r : Rat)))
  | .str l, .str r => .ok (decide (l < r))
  | .arr l, .arr r => evalLessList pos l r
  | _, _ =>
    .error (.typeErr pos
      "comparison requires two integers or two strings (or arrays of integers or strings)")

/-- Array `<`: find the first index where elements differ and compare there;
if all shared positions agree the shorter array is smaller. -/
def evalLessList (pos : Position) : List Val → List Val → Except Exc Bool
  | l :: ls, r :: rs =>
    if evalEqual l r then evalLessList pos ls rs
    else evalLess pos l r
  | [], rs => .ok (decide (0 < rs.length))
  | _ :: _, [] => .ok false

end

/-- `evalIn` (interpreter.go): containment. -/
def evalIn (pos : Position) (l r : Val) : Except Exc Bool :=
  match r with
  | .str rs =>
    match l with
    | .str ls => .ok (decide (ls.data <:+: rs.data))  -- strings.Contains r l
    | _ => .error (.typeErr pos "in string requires string on left side")
  | .arr elems => .ok (elems.any (fun v => evalEqual l v))
  | .obj pairs =>
    match l with
    | .str k => .ok ((objLookup pairs k).isSome)
    | _ => .error (.typeErr pos "in object requires string on left side")
  | _ => .error (.typeErr pos "in requires string, array, or object on right side")

/-- `ensureIntToFloats` (interpreter.go): both operands as floats, or the
"requires two floats or integers" type error. -/
def ensureIntToFloats (pos : Position) (l r : Val) (operation : String) :
    Except Exc (Rat × Rat) :=
  match l, r with
  | .int l, .int r => .ok ((l : Rat), (r : Rat))
  | .int l, .float r => .ok ((l : Rat), r)
  | .float l, .int r => .ok (l, (r : Rat))
  | .float l, .float r => .ok (l, r)
  | _, _ =>
    .error (.typeErr pos (operation ++ " requires two floats or integers"))

def strRepeat (s : String) (n : Nat) : String :=
  String.join (List.replicate n s)

def listRepeat (l : List Val) (n : Nat) : List Val :=
  (List.replicate n l).flatten

/-- `evalPlus` (interpreter.go). -/
def evalPlus (pos : Position) (l r : Val) : Except Exc Val :=
  match l, r with
  | .int l, .int r => .ok (.int (l + r))
  | .int l, .float r => .ok (.float ((l : Rat) + r))
  | .float l, .float r => .ok (.float (l + r))
  | .float l, .int r => .ok (.float (l + (r : Rat)))
  | .str l, .str r => .ok (.str (l ++ r))
  | .arr l, .arr r => .ok (.arr (l ++ r))
  | .obj l, .obj r => .ok (.obj (r.foldl (fun acc kv => objSet acc kv.1 kv.2) l))
  | _, _ =>
    .error (.typeErr pos "+ requires two integers, strings, arrays, or objects")

/-- `evalMinus` (interpreter.go). -/
def evalMinus (pos : Position) (l r : Val) : Except Exc Val :=
  match l, r with
  | .int l, .int r => .ok (.int (l - r))
  | .int l, .float r => .ok (.float ((l : Rat) - r))
  | .float l, .float r => .ok (.float (l - r))
  | .float l, .int r => .ok (.float (l - (r : Rat)))
  | _, _ =>
    .error (.typeErr pos
      ("- requires two floats or integers, got " ++ goType l ++ " and " ++ goType r))

/-- `evalTimes` (interpreter.go). -/
def evalTimes (pos : Position) (l r : Val) : Except Exc Val :=
  match l, r with
  | .int l, .int r => .ok (.int (l * r))
  | .int l, .float r => .ok (.float ((l : Rat) * r))
  | .int l, .str r =>
    if l < 0 then .error (.valueErr pos "can't multiply string by a negative number")
    else .ok (.str (strRepeat r l.natAbs))
  | .int l, .arr r =>
    if l < 0 then .error (.valueErr pos "can't multiply array by a negative number")
    else .ok (.arr (listRepeat r l.natAbs))
  | .float l, .float r => .ok (.float (l * r))
  | .float l, .int r => .ok (.float (l * (r : Rat)))
  | .str l, .int r =>
    if r < 0 then .error (.valueErr pos "can't multiply string by a negative number")
    else .ok (.str (strRepeat l r.natAbs))
  | .arr l, .int r =>
    if r < 0 then .error (.valueErr pos "can't multiply array by a negative number")
    else .ok (.arr (listRepeat l r.natAbs))
  | _, _ =>
    .error (.typeErr pos
      "* requires two integers or floats, or a string or array and an integer")

/-- `evalDivide` (interpreter.go): always float division; division by zero is
a value error.  (Exact rational division stands in for float64 division; no
verified property divides.) -/
def evalDivide (pos : Position) (l r : Val) : Except Exc Val := do
  let (li, ri) ← ensureIntToFloats pos l r "/"
  if ri = 0 then .error (.valueErr pos "can't divide by zero")
  else .ok (.float (li / ri))

/-- Go `int(f)` truncation of a float (toward zero). -/
def ratTruncToInt (q : Rat) : Int :=
  Int.tdiv q.num (q.den : Int)

/-- `evalModulo` (interpreter.go): operands as floats, truncated to int, Go
`%` (truncated remainder). -/
def evalModulo (pos : Position) (l r : Val) : Except Exc Val := do
  let (li, ri) ← ensureIntToFloats pos l r "%"
  if ri = 0 then .error (.valueErr pos "can't divide by zero")
  else .ok (.int (Int.tmod (ratTruncToInt li) (ratTruncToInt ri)))

/-- `evalNot` (interpreter.go): requires a bool and negates it; anything else
is the "not requires a bool" type error. -/
def evalNot (pos : Position) (v : Val) : Except Exc Val :=
  match v with
  | .bool b => .ok (.bool (!b))
  | _ => .error (.typeErr pos "not requires a bool")

/-- `evalNegative` (interpreter.go): unary minus on int or float. -/
def evalNegative (pos : Position) (v : Val) : Except Exc Val :=
  match v with
  | .int n => .ok (.int (-n))
  | .float q => .ok (.float (-q))
  | _ => .error (.typeErr pos "unary - requires an integer or float")

/-- `evalSubscript` (interpreter.go).  Strings and arrays support negative
(end-relative) indices and raise a value error out of range; objects yield
the bound value for a present key and raise the "key not found" value error
otherwise.  (String indexing is modelled at the character level; Go indexes
bytes, which agrees on ASCII content, and no verified property subscripts a
string.) -/
def evalSubscript (pos : Position) (container sub : Val) : Except Exc Val :=
  match container with
  | .str c =>
    match sub with
    | .int s =>
      let s := if s < 0 then (c.length : Int) + s else s
      if s < 0 ∨ (c.length : Int) ≤ s then
        .error (.valueErr pos ("subscript " ++ intRepr s ++ " out of range"))
      else .ok (.str (String.mk [c.data.getD s.natAbs ' ']))
    | _ => .error (.typeErr pos "string subscript must be an integer")
  | .arr elems =>
    match sub with
    | .int s =>
      let s := if s < 0 then (elems.length : Int) + s else s
      if s < 0 ∨ (elems.length : Int) ≤ s then
        .error (.valueErr pos ("subscript " ++ intRepr s ++ " out of range"))
      else .ok (elems.getD s.natAbs .null)
    | _ => .error (.typeErr pos "array subscript must be an integer")
  | .obj pairs =>
    match sub with
    | .str s =>
      match objLookup pairs s with
      | some v => .ok v
      | none => .error (.valueErr pos ("key not found: " ++ goQuote s))
    | _ => .error (.typeErr pos "object subscript must be a string")
  | _ => .error (.typeErr pos "can only subscript string, array, or object")

/-- `getIterator` (interpreter.go) as the list of iterated values: a string
yields its characters as one-character strings, an array its elements, an
object its keys (in association-list order; the Go map iteration order is
nondeterministic and no verified property iterates an object). -/
def getIterator (pos : Position) (v : Val) : Except Exc (List Val) :=
  match v with
  | .str s => .ok (s.data.map (fun c => .str (String.mk [c])))
  | .arr elems => .ok elems
  | .obj pairs => .ok (pairs.map (fun kv => .str kv.1))
  | _ =>
    .error (.typeErr pos
      ("expected iterable (string, array, or object), got " ++ typeName v))

/-!  ## Scope stack

Go keeps `interp.vars` as a slice with the innermost scope at the end; the
embedding keeps the innermost frame at the head of the list. -/

abbrev Frame := List (String × Val)

abbrev Scopes := List Frame

/-- `interp.lookup`: scan innermost to outermost. -/
def lookupVar (scopes : Scopes) (name : String) : Option Val :=
  match scopes with
  | [] => none
  | frame :: rest =>
    match objLookup frame name with
    | some v => some v
    | none => lookupVar rest name

/-- `interp.assign`: write to the innermost frame. -/
def assignVar (scopes : Scopes) (name : String) (v : Val) : Scopes :=
  match scopes with
  | [] => []
  | frame :: rest => objSet frame name v :: rest

/-- `ensureNumArgs` message (functions.go). -/
def ensureNumArgsMsg (name : String) (required got : Nat) : String :=
  name ++ "() requires " ++ Nat.repr required ++
    (if required ≠ 1 then " args" else " arg") ++ ", got " ++ Nat.repr got

/-- The operators present in the `binaryEvalFuncs` dispatch table
(interpreter.go); for these the evaluator evaluates both operands and applies
the table entry. -/
def isBinaryEvalOp : Token → Bool
  | .DIVIDE | .EQUAL | .GT | .GTE | .IN | .LT | .LTE
  | .MINUS | .MODULO | .NOTEQUAL | .PLUS | .TIMES => true
  | _ => false

/-- The `binaryEvalFuncs` table entries (interpreter.go), applied to already
evaluated operands.  `GT`/`GTE`/`LTE`/`NOTEQUAL` are the swapped/negated
wrappers from the table. -/
def applyBinaryOp (pos : Position) (op : Token) (l r : Val) : Except Exc Val :=
  match op with
  | .DIVIDE => evalDivide pos l r
  | .EQUAL => .ok (.bool (evalEqual l r))
  | .GT => do
    let b ← evalLess pos r l
    .ok (.bool b)
  | .GTE => do
    let b ← evalLess pos l r
    .ok (.bool (!b))
  | .IN => do
    let b ← evalIn pos l r
    .ok (.bool b)
  | .LT => do
    let b ← evalLess pos l r
    .ok (.bool b)
  | .LTE => do
    let b ← evalLess pos r l
    .ok (.bool (!b))
  | .MINUS => evalMinus pos l r
  | .MODULO => evalModulo pos l r
  | .NOTEQUAL => .ok (.bool (!evalEqual l r))
  | .PLUS => evalPlus pos l r
  | .TIMES => evalTimes pos l r
  | _ => .error (.hostPanic ("unknown binary operator " ++ tokenName op))

/-- `interp.assignSubscript` (interpreter.go): the checks performed by
subscript assignment.  Note there is no negative-index adjustment here
(unlike subscript reads).  The successful in-place store through the array
pointer / map reference is not representable without a heap and no verified
property depends on it; the embedding performs the same checks and leaves the
scope stack unchanged. -/
def assignSubscript (pos : Position) (container sub : Val) : Except Exc Unit :=
  match container with
  | .arr elems =>
    match sub with
    | .int s =>
      if s < 0 ∨ (elems.length : Int) ≤ s then
        .error (.valueErr pos ("subscript " ++ intRepr s ++ " out of range"))
      else .ok ()
    | _ => .error (.typeErr pos "array subscript must be an integer")
  | .obj _ =>
    match sub with
    | .str _ => .ok ()
    | _ => .error (.typeErr pos "object subscript must be a string")
  | _ => .error (.typeErr pos "can only assign to subscript of array or object")

/-- The file system seen by the interpreter: path to file contents.
`os.ReadFile` is modelled as a lookup in this map. -/
abbrev FS := String → Option String

mutual

/-- `interp.evaluate` (interpreter.go).  The first argument is the abstract
file system (used by `import` statements reachable through calls), the second
the fuel, then the scope stack and the expression.  The result pairs the
outcome with the scope stack as left by the (possibly panicking) execution. -/
def evalExpr (fs : FS) : Nat → Scopes → Expr → Except Exc Val × Scopes
  | 0, st, _ => (.error .outOfFuel, st)
  | fuel + 1, st, e =>
    match e with
    | .literal _ v => (.ok v, st)
    | .varRef pos name =>
      match lookupVar st name with
      | some v => (.ok v, st)
      | none => (.error (.nameErr pos ("name " ++ goQuote name ++ " not found")), st)
    | .binary pos le op re =>
      match op with
      | .AND =>
        -- `interp.evalAnd`: left must be a bool; short-circuit on false
        match evalExpr fs fuel st le with
        | (.ok (.bool lb), st) =>
          if !lb then (.ok (.bool false), st)
          else
            match evalExpr fs fuel st re with
            | (.ok (.bool rb), st) => (.ok (.bool rb), st)
            | (.ok _, st) => (.error (.typeErr pos "and requires two bools"), st)
            | (.error ex, st) => (.error ex, st)
        | (.ok _, st) => (.error (.typeErr pos "and requires two bools"), st)
        | (.error ex, st) => (.error ex, st)
      | .OR =>
        -- `interp.evalOr`: left must be a bool; short-circuit on true
        match evalExpr fs fuel st le with
        | (.ok (.bool lb), st) =>
          if lb then (.ok (.bool true), st)
          else
            match evalExpr fs fuel st re with
            | (.ok (.bool rb), st) => (.ok (.bool rb), st)
            | (.ok _, st) => (.error (.typeErr pos "or requires two bools"), st)
            | (.error ex, st) => (.error ex, st)
        | (.ok _, st) => (.error (.typeErr pos "or requires two bools"), st)
        | (.error ex, st) => (.error ex, st)
      | .XOR =>
        -- `interp.evalXor`: both operands evaluated, truthiness XOR
        match evalExpr fs fuel st le with
        | (.ok lv, st) =>
          match evalExpr fs fuel st re with
          | (.ok rv, st) => (.ok (.bool (IsTruthy lv != IsTruthy rv)), st)
          | (.error ex, st) => (.error ex, st)
        | (.error ex, st) => (.error ex, st)
      | _ =>
        -- table dispatch; an operator missing from every table is the
        -- "unknown binary operator" panic, raised before evaluating operands
        if isBinaryEvalOp op then
          match evalExpr fs fuel st le with
          | (.ok lv, st) =>
            match evalExpr fs fuel st re with
            | (.ok rv, st) => (applyBinaryOp pos op lv rv, st)
            | (.error ex, st) => (.error ex, st)
          | (.error ex, st) => (.error ex, st)
        else (.error (.hostPanic ("unknown binary operator " ++ tokenName op)), st)
    | .unary pos op operand =>
      match op with
      | .NOT =>
        match evalExpr fs fuel st operand with
        | (.ok v, st) => (evalNot pos v, st)
        | (.error ex, st) => (.error ex, st)
      | .MINUS =>
        match evalExpr fs fuel st operand with
        | (.ok v, st) => (evalNegative pos v, st)
        | (.error ex, st) => (.error ex, st)
      | _ => (.error (.hostPanic ("unknown unary operator " ++ tokenName op)), st)
    | .ternary _ c te fe =>
      match evalExpr fs fuel st c with
      | (.ok cv, st) =>
        if IsTruthy cv then evalExpr fs fuel st te else evalExpr fs fuel st fe
      | (.error ex, st) => (.error ex, st)
    | .call _ fnE argEs ellipsis =>
      match evalExpr fs fuel st fnE with
      | (.ok fv, st) =>
        match fv with
        | .fn u =>
          match evalExprList fs fuel st argEs with
          | (.ok args, st) =>
            if ellipsis then
              match argEs.getLast?, args.getLast? with
              | some lastE, some lastV =>
                match getIterator lastE.positionOf lastV with
                | .ok vals => callFunction fs fuel st fnE.positionOf u (args.dropLast ++ vals)
                | .error ex => (.error ex, st)
              | _, _ => (.error (.hostPanic "index out of range"), st)
            else callFunction fs fuel st fnE.positionOf u args
          | (.error ex, st) => (.error ex, st)
        | _ =>
          (.error (.typeErr fnE.positionOf
            ("can't call non-function type " ++ typeName fv)), st)
      | (.error ex, st) => (.error ex, st)
    | .list _ es =>
      match evalExprList fs fuel st es with
      | (.ok vs, st) => (.ok (.arr vs), st)
      | (.error ex, st) => (.error ex, st)
    | .mapLit _ items => evalMapItems fs fuel st items []
    | .subscript _ contE subE =>
      match evalExpr fs fuel st contE with
      | (.ok cv, st) =>
        match evalExpr fs fuel st subE with
        | (.ok sv, st) => (evalSubscript subE.positionOf cv sv, st)
        | (.error ex, st) => (.error ex, st)
      | (.error ex, st) => (.error ex, st)
    | .funExpr _ params ellipsis body =>
      (.ok (.fn (.mk "" params ellipsis body (st.headD []))), st)

/-- Left-to-right evaluation of an expression list (call arguments and list
literals). -/
def evalExprList (fs : FS) : Nat → Scopes → List Expr → Except Exc (List Val) × Scopes
  | 0, st, _ => (.error .outOfFuel, st)
  | _fuel + 1, st, [] => (.ok [], st)
  | fuel + 1, st, e :: rest =>
    match evalExpr fs fuel st e with
    | (.ok v, st) =>
      match evalExprList fs fuel st rest with
      | (.ok vs, st) => (.ok (v :: vs), st)
      | (.error ex, st) => (.error ex, st)
    | (.error ex, st) => (.error ex, st)

/-- `*Map` literal evaluation: for each item the key is evaluated first and
must be a string (else the "object key must be string" type error, before the
value is evaluated); bindings are inserted in order with map semantics. -/
def evalMapItems (fs : FS) : Nat → Scopes → List (Expr × Expr) →
    List (String × Val) → Except Exc Val × Scopes
  | 0, st, _, _ => (.error .outOfFuel, st)
  | _fuel + 1, st, [], acc => (.ok (.obj acc), st)
  | fuel + 1, st, (ke, ve) :: rest, acc =>
    match evalExpr fs fuel st ke with
    | (.ok (.str k), st) =>
      match evalExpr fs fuel st ve with
      | (.ok v, st) => evalMapItems fs fuel st rest (objSet acc k v)
      | (.error ex, st) => (.error ex, st)
    | (.ok kv, st) =>
      (.error (.typeErr ke.positionOf
        ("object key must be string, not " ++ typeName kv)), st)
    | (.error ex, st) => (.error ex, st)

/-- `interp.callFunction` (interpreter.go): run the call and convert a
`returnResult` unwind into the call's value. -/
def callFunction (fs : FS) : Nat → Scopes → Position → UserFn → List Val →
    Except Exc Val × Scopes
  | 0, st, _, _, _ => (.error .outOfFuel, st)
  | fuel + 1, st, pos, u, args =>
    match callUser fs fuel st pos u args with
    | (.error (.returnExc v _), st) => (.ok v, st)
    | r => r

/-- `userFunction.call` (functions.go).  A variadic callee first collects the
arguments beyond `len(params)-1` into a fresh array bound to the last
parameter; the Go slice expression `args[len(f.Parameters)-1:]` panics
(slice bounds out of range) when fewer arguments than `len(params)-1` are
supplied (or when the parameter list is empty).  Then `ensureNumArgs`
enforces arity, the closure frame and a fresh parameter frame are pushed,
parameters are bound, and the body runs; the deferred scope pops run on both
the normal and the panicking path.  A call without a `return` yields null. -/
def callUser (fs : FS) : Nat → Scopes → Position → UserFn → List Val →
    Except Exc Val × Scopes
  | 0, st, _, _, _ => (.error .outOfFuel, st)
  | fuel + 1, st, pos, u, args =>
    if u.ellipsis ∧ ((u.params.length : Int) - 1 < 0 ∨
        (args.length : Int) < (u.params.length : Int) - 1) then
      (.error (.hostPanic "runtime error: slice bounds out of range"), st)
    else
      let args := if u.ellipsis then
          args.take (u.params.length - 1) ++ [Val.arr (args.drop (u.params.length - 1))]
        else args
      if args.length ≠ u.params.length then
        (.error (.typeErr pos (ensureNumArgsMsg u.name u.params.length args.length)), st)
      else
        let paramFrame : Frame :=
          (List.zip u.params args).foldl (fun acc kv => objSet acc kv.1 kv.2) []
        match execBlock fs fuel (paramFrame :: u.closure :: st) u.body with
        | (.ok _, st') => (.ok .null, st'.tail.tail)
        | (.error ex, st') => (.error ex, st'.tail.tail)

/-- `interp.executeBlock`. -/
def execBlock (fs : FS) : Nat → Scopes → Block → Except Exc Unit × Scopes
  | 0, st, _ => (.error .outOfFuel, st)
  | _fuel + 1, st, [] => (.ok (), st)
  | fuel + 1, st, s :: rest =>
    match execStmt fs fuel st s with
    | (.ok _, st) => execBlock fs fuel st rest
    | (.error ex, st) => (.error ex, st)

/-- `interp.executeStatement` (interpreter.go). -/
def execStmt (fs : FS) : Nat → Scopes → Stmt → Except Exc Unit × Scopes
  | 0, st, _ => (.error .outOfFuel, st)
  | fuel + 1, st, stmt =>
    match stmt with
    | .assign _ target value =>
      match target with
      | .varRef _ name =>
        match evalExpr fs fuel st value with
        | (.ok v, st) => (.ok (), assignVar st name v)
        | (.error ex, st) => (.error ex, st)
      | .subscript _ contE subE =>
        match evalExpr fs fuel st contE with
        | (.ok cv, st) =>
          match evalExpr fs fuel st subE with
          | (.ok sv, st) =>
            match evalExpr fs fuel st value with
            | (.ok _, st) =>
              match assignSubscript subE.positionOf cv sv with
              | .ok _ => (.ok (), st)
              | .error ex => (.error ex, st)
            | (.error ex, st) => (.error ex, st)
          | (.error ex, st) => (.error ex, st)
        | (.error ex, st) => (.error ex, st)
      | _ => (.error (.hostPanic "can only assign to variable or subscript"), st)
    | .ifStmt _ cond body elseBody =>
      match evalExpr fs fuel st cond with
      | (.ok (.bool c), st) =>
        if c then execBlock fs fuel st body
        else if 0 < elseBody.length then execBlock fs fuel st elseBody
        else (.ok (), st)
      | (.ok cv, st) =>
        (.error (.typeErr cond.positionOf
          ("if condition must be bool, got " ++ typeName cv)), st)
      | (.error ex, st) => (.error ex, st)
    | .whileStmt _ cond body => execWhile fs fuel st cond body
    | .forStmt _ name iterable body =>
      match evalExpr fs fuel st iterable with
      | (.ok v, st) =>
        match getIterator iterable.positionOf v with
        | .ok vals => execForIter fs fuel st name vals body
        | .error ex => (.error ex, st)
      | (.error ex, st) => (.error ex, st)
    | .tryCatch _ tb errVar cb =>
      -- push a fresh scope, run the try block
      match execBlock fs fuel ([] :: st) tb with
      | (.ok _, st') => (.ok (), st'.tail)
      | (.error exc, st') =>
        match exc with
        | .outOfFuel => (.error .outOfFuel, st')
        | .returnExc v p =>
          -- the deferred recover has already popped the try scope and pushed
          -- a fresh catch scope when it re-panics `returnResult`
          (.error (.returnExc v p), [] :: st'.tail)
        | e =>
          -- pop the try scope, push the catch scope, bind the error text
          let st2 := assignVar ([] :: st'.tail) errVar (.str (errString e))
          match execBlock fs fuel st2 cb with
          | (.ok _, st3) => (.ok (), st3.tail)
          | (.error ex2, st3) => (.error ex2, st3)
    | .exprStmt _ e =>
      match evalExpr fs fuel st e with
      | (.ok _, st) => (.ok (), st)
      | (.error ex, st) => (.error ex, st)
    | .funDef _ name params ellipsis body =>
      (.ok (), assignVar st name (.fn (.mk name params ellipsis body (st.headD []))))
    | .ret pos result =>
      match evalExpr fs fuel st result with
      | (.ok v, st) => (.error (.returnExc v pos), st)
      | (.error ex, st) => (.error ex, st)
    | .brk pos => (.error (.breakExc pos), st)
    | .cont pos => (.error (.continueExc pos), st)
    | .importStmt pos filename => executeImport fs fuel st pos filename

/-- The `*While` case of `executeStatement`: the condition is re-evaluated
each iteration and must be a bool; a `BreakException` from the body ends the
loop normally, a `ContinueException` proceeds with the next iteration, and
every other unwind propagates. -/
def execWhile (fs : FS) : Nat → Scopes → Expr → Block → Except Exc Unit × Scopes
  | 0, st, _, _ => (.error .outOfFuel, st)
  | fuel + 1, st, cond, body =>
    match evalExpr fs fuel st cond with
    | (.ok (.bool c), st) =>
      if !c then (.ok (), st)
      else
        match execBlock fs fuel st body with
        | (.ok _, st) => execWhile fs fuel st cond body
        | (.error (.breakExc _), st) => (.ok (), st)
        | (.error (.continueExc _), st) => execWhile fs fuel st cond body
        | (.error ex, st) => (.error ex, st)
    | (.ok cv, st) =>
      (.error (.typeErr cond.positionOf
        ("while condition must be bool, got " ++ goType cv)), st)
    | (.error ex, st) => (.error ex, st)

/-- The `*For` case of `executeStatement`: iterate the snapshot list, binding
the loop variable in the current (enclosing) scope; break/continue as in
`while`. -/
def execForIter (fs : FS) : Nat → Scopes → String → List Val → Block →
    Except Exc Unit × Scopes
  | 0, st, _, _, _ => (.error .outOfFuel, st)
  | _fuel + 1, st, _, [], _ => (.ok (), st)
  | fuel + 1, st, name, v :: rest, body =>
    let st := assignVar st name v
    match execBlock fs fuel st body with
    | (.ok _, st) => execForIter fs fuel st name rest body
    | (.error (.breakExc _), st) => (.ok (), st)
    | (.error (.continueExc _), st) => execForIter fs fuel st name rest body
    | (.error ex, st) => (.error ex, st)

/-- `interp.executeImport` (interpreter.go), the `import` statement: read
exactly the literal filename (no suffix appending, no search paths), parse,
and execute every top-level statement in the current environment — including
`fun main` definitions.  Read and parse failures are runtime errors.  (The
read-failure message embeds the OS error text; the embedding uses the
"no such file or directory" form.) -/
def executeImport (fs : FS) : Nat → Scopes → Position → String →
    Except Exc Unit × Scopes
  | 0, st, _, _ => (.error .outOfFuel, st)
  | fuel + 1, st, pos, filename =>
    match fs filename with
    | none =>
      (.error (.runtimeErr pos ("failed to import file '" ++ filename ++
        "': open " ++ filename ++ ": no such file or directory")), st)
    | some content =>
      match ParseProgram content with
      | .error e =>
        (.error (.runtimeErr pos ("failed to parse imported file '" ++ filename ++
          "': parse error at " ++ posStr e.pos ++ ": " ++ e.msg)), st)
      | .ok prog => execBlock fs fuel st prog

end

/-!  ## Built-ins exercised by the verified properties -/

/-- `functionType.name` of a user function: `<fun>` when anonymous. -/
def fnDisplayName (u : UserFn) : String :=
  if u.name = "" then "<fun>" else "<fun " ++ u.name ++ ">"

/-- Model of Go's `sort.Strings` (ascending byte-wise order; on the valid
UTF-8 strings produced here this is the code-point order of Lean's `String`
order).  The sorted permutation of a list of strings is unique, so any
correct sorting algorithm is extensionally the same function; insertion sort
is used as the executable model. -/
def sortStrings (l : List String) : List String :=
  List.insertionSort (· ≤ ·) l

mutual

/-- `toString` (functions.go): the canonical rendering used by `str()` and
`print()`.  `quoteStr` selects `%q` for strings (used inside arrays and
objects).  Object pairs are rendered as `%q: <value>` items which are then
sorted (`sort.Strings`) "to ensure str output is consistent".  The `%g`
float formatting is not reproducible over the rational model, so the float
rendering is a parameter `fr`; no verified property depends on it. -/
def toStr (fr : Rat → String) (value : Val) (quoteStr : Bool) : String :=
  match value with
  | .null => "null"
  | .bool b => if b then "true" else "false"
  | .int n => intRepr n
  | .float q => fr q
  | .str s => if quoteStr then goQuote s else s
  | .arr elems => "[" ++ String.intercalate ", " (toStrList fr elems) ++ "]"
  | .obj pairs =>
    "\x7b" ++ String.intercalate ", " (sortStrings (toStrItems fr pairs)) ++ "\x7d"
  | .fn u => fnDisplayName u

def toStrList (fr : Rat → String) : List Val → List String
  | [] => []
  | v :: rest => toStr fr v true :: toStrList fr rest

/-- The `%q: %s` item strings of an object, in iteration order. -/
def toStrItems (fr : Rat → String) : List (String × Val) → List String
  | [] => []
  | (k, v) :: rest => (goQuote k ++ ": " ++ toStr fr v true) :: toStrItems fr rest

end

/-- `printFunc` (functions.go): arguments rendered unquoted, joined by single
spaces (`fmt.Fprintln`), newline-terminated. -/
def printFunc (fr : Rat → String) (args : List Val) : String :=
  String.intercalate " " (args.map (fun a => toStr fr a false)) ++ "\n"

/-- `rangeFunc` (functions.go): `range(n)` and `range(start, stop)`. -/
def rangeFunc (pos : Position) (args : List Val) : Except Exc Val :=
  match args with
  | [a] =>
    match a with
    | .int n =>
      if n < 0 then .error (.valueErr pos "range() argument must not be negative")
      else .ok (.arr ((List.range n.toNat).map (fun i => .int i)))
    | _ => .error (.typeErr pos "range() requires an integer")
  | [a, b] =>
    match a, b with
    | .int start, .int stop =>
      if start > stop then .ok (.arr [])
      else .ok (.arr ((List.range (stop - start).toNat).map (fun i => .int (start + i))))
    | _, _ => .error (.typeErr pos "range() requires integer arguments")
  | _ =>
    .error (.valueErr pos
      ("range() requires 1 or 2 arguments, got " ++ Nat.repr args.length))

/-- `strings.HasSuffix`. -/
def goHasSuffix (s suffix : String) : Bool :=
  List.isPrefixOf suffix.data.reverse s.data.reverse

/-- `filepath.IsAbs` for the slash-separated paths used here. -/
def isAbsPath (p : String) : Bool :=
  match p.data with
  | '/' :: _ => true
  | _ => false

/-- `filepath.Join` on two already-clean components (path cleaning is not
modelled; every verified property uses clean relative paths). -/
def joinPath (a b : String) : String :=
  a ++ "/" ++ b

/-- The candidate paths `importFunc` tries, in order: the exact (suffixed)
path; the cwd-joined path when relative; `examples/`; `../examples/`. -/
def importCandidates (cwd filename : String) : List String :=
  [filename] ++
    (if ¬ isAbsPath filename then [joinPath cwd filename] else []) ++
    [joinPath "examples" filename, joinPath (joinPath ".." "examples") filename]

/-- First candidate the file system can read, with its content. -/
def firstReadable (fs : FS) : List String → Option (String × String)
  | [] => none
  | p :: rest =>
    match fs p with
    | some content => some (p, content)
    | none => firstReadable fs rest

/-- A top-level `fun main(...)` definition (skipped by the `import()`
built-in). -/
def isMainDef : Stmt → Bool
  | .funDef _ name _ _ _ => name = "main"
  | _ => false

/-- The statement loop at the end of `importFunc`: every top-level statement
executes in the current environment except `fun main` definitions. -/
def runImportedStmts (fs : FS) (fuel : Nat) (st : Scopes) :
    Block → Except Exc Unit × Scopes
  | [] => (.ok (), st)
  | s :: rest =>
    if isMainDef s then runImportedStmts fs fuel st rest
    else
      match execStmt fs fuel st s with
      | (.ok _, st') => runImportedStmts fs fuel st' rest
      | (.error ex, st') => (.error ex, st')

/-- `importFunc` (functions.go), the `import()` BUILT-IN: append the `.din`
suffix if absent, try the candidate paths in order, parse the first readable
file, and execute its top-level statements skipping any `fun main`
definition.  Read and parse failures yield `false` (with a diagnostic line on
stdout, which is not modelled); success yields `true`. -/
def importFunc (fs : FS) (cwd : String) (fuel : Nat) (st : Scopes)
    (pos : Position) (args : List Val) : Except Exc Val × Scopes :=
  if args.length ≠ 1 then
    (.error (.typeErr pos (ensureNumArgsMsg "import" 1 args.length)), st)
  else
    match args with
    | [.str filename] =>
      let filename := if goHasSuffix filename ".din" then filename
                      else filename ++ ".din"
      match firstReadable fs (importCandidates cwd filename) with
      | none => (.ok (.bool false), st)
      | some (_, content) =>
        match ParseProgram content with
        | .error _ => (.ok (.bool false), st)
        | .ok prog =>
          match runImportedStmts fs fuel st prog with
          | (.ok _, st') => (.ok (.bool true), st')
          | (.error ex, st') => (.error ex, st')
    | _ => (.error (.typeErr pos "import() requires a string filename"), st)

/-!  ## Verified properties -/

/-- C9: for all integers `start` and `stop`, `range(start, stop)` returns an
integer array of length `max(0, stop − start)` whose `i`-th element is
`start + i`; in particular the empty array whenever `start > stop`.
(Go `int` modelled as unbounded `Int`; 64-bit overflow of `stop - start` is
out of scope.) -/
theorem rangeFunc_start_stop_spec (pos : Position) (start stop : Int) :
    rangeFunc pos [.int start, .int stop] =
      .ok (.arr ((List.range (max 0 (stop - start)).toNat).map
        (fun i => .int (start + (i : Int))))) ∧
    (start > stop → rangeFunc pos [.int start, .int stop] = .ok (.arr [])) := by
  have hmax : (max 0 (stop - start)).toNat = (stop - start).toNat := by omega
  constructor
  · by_cases h : start > stop
    · have h0 : (max 0 (stop - start)).toNat = 0 := by omega
      simp [rangeFunc, h, h0]
    · simp [rangeFunc, h, hmax]
  · intro h
    simp [rangeFunc, h]

/-- Witness for `rangeFunc_start_stop_spec` at `range(2, 5)` and
`range(5, 2)`. -/
theorem rangeFunc_start_stop_spec_witness :
    rangeFunc ⟨1, 1⟩ [.int 2, .int 5] =
      .ok (.arr ((List.range (max 0 (5 - 2 : Int)).toNat).map
        (fun i => .int (2 + (i : Int))))) ∧
    rangeFunc ⟨1, 1⟩ [.int 5, .int 2] = .ok (.arr []) :=
  ⟨(rangeFunc_start_stop_spec ⟨1, 1⟩ 2 5).1,
   (rangeFunc_start_stop_spec ⟨1, 1⟩ 5 2).2 (by decide)⟩

/-- C7 (code bug): the empty array is TRUTHY at runtime, unlike the other
empty values.  `IsTruthy` has a `case []Value` intended to make `[]` falsy,
but runtime arrays are represented as `*[]Value`, which that case never
matches, so arrays fall to the `default: return true` branch; consequently
the ternary `[] ? 1 : 2` evaluates to `1` where the specification says `[]`
is falsy (expecting `2`). -/
theorem empty_array_is_truthy :
    IsTruthy (.arr []) = true ∧
    IsTruthy (.obj []) = false ∧
    IsTruthy (.str "") = false ∧
    IsTruthy .null = false ∧
    IsTruthy (.int 0) = false ∧
    (evalExpr (fun _ => none) 10 [[]]
      (.ternary ⟨1, 1⟩ (.list ⟨1, 1⟩ [])
        (.literal ⟨1, 6⟩ (.int 1)) (.literal ⟨1, 10⟩ (.int 2)))).1
      = .ok (.int 1) :=
  ⟨rfl, rfl, rfl, rfl, rfl, rfl⟩

/-- C2 counterexample: reading an absent key from an (empty) object raises
the "key not found" value error; it does not yield null. -/
theorem object_subscript_missing_key_cex :
    evalSubscript ⟨1, 1⟩ (.obj []) (.str "a") =
      .error (.valueErr ⟨1, 1⟩ "key not found: \"a\"") ∧
    evalSubscript ⟨1, 1⟩ (.obj []) (.str "a") ≠ .ok .null :=
  ⟨rfl, fun h => Except.noConfusion h⟩

/-- C2 (amended): subscript read on an object yields the bound value for a
present key, and raises the value error `key not found: <%q key>` for an
absent key (it does not yield null). -/
theorem object_subscript_read_semantics (pos : Position)
    (pairs : List (String × Val)) (k : String) :
    (∀ v, objLookup pairs k = some v →
      evalSubscript pos (.obj pairs) (.str k) = .ok v) ∧
    (objLookup pairs k = none →
      evalSubscript pos (.obj pairs) (.str k) =
        .error (.valueErr pos ("key not found: " ++ goQuote k))) := by
  constructor
  · intro v h
    simp [evalSubscript, h]
  · intro h
    simp [evalSubscript, h]

/-- Witness for `object_subscript_read_semantics`: a present and an absent
key on `{"a": 5}`. -/
theorem object_subscript_read_semantics_witness :
    evalSubscript ⟨1, 1⟩ (.obj [("a", .int 5)]) (.str "a") = .ok (.int 5) ∧
    evalSubscript ⟨1, 1⟩ (.obj [("a", .int 5)]) (.str "b") =
      .error (.valueErr ⟨1, 1⟩ ("key not found: " ++ goQuote "b")) :=
  ⟨(object_subscript_read_semantics ⟨1, 1⟩ [("a", .int 5)] "a").1 (.int 5) rfl,
   (object_subscript_read_semantics ⟨1, 1⟩ [("a", .int 5)] "b").2 rfl⟩

/-- C5 (code bug): the tokenizer produces the compound-assignment tokens
(`+=` here), and the repository documents `x += e` as desugaring to
`x = x + e`, but the parser's `statement` function only accepts `=` after a
target expression, so `x += 1` fails to parse: the statement is split after
`x` and the next statement begins with `+=`, giving the parse error
"expected expression, not +=" at the operator. -/
theorem compound_assignment_parse_error :
    (tokenize "x += 1").map (fun t => t.tok) =
      [.NAME, .PLUSEQUAL, .INT, .EOF] ∧
    ParseProgram "x += 1" =
      .error ⟨⟨1, 3⟩, "expected expression, not +="⟩ :=
  ⟨rfl, rfl⟩

/-- C6 counterexample: the source `a or b ? x : y` parses with the ternary
nested under the disjunction — `a or (b ? x : y)` — not as
`(a or b) ? x : y`. -/
theorem ternary_precedence_cex :
    ParseExpression "a or b ? x : y" =
      .ok (.binary ⟨1, 3⟩ (.varRef ⟨1, 1⟩ "a") .OR
        (.ternary ⟨1, 8⟩ (.varRef ⟨1, 6⟩ "b")
          (.varRef ⟨1, 10⟩ "x") (.varRef ⟨1, 14⟩ "y"))) ∧
    ParseExpression "a or b ? x : y" ≠
      .ok (.ternary ⟨1, 8⟩
        (.binary ⟨1, 3⟩ (.varRef ⟨1, 1⟩ "a") .OR (.varRef ⟨1, 6⟩ "b"))
        (.varRef ⟨1, 10⟩ "x") (.varRef ⟨1, 14⟩ "y")) := by
  refine ⟨rfl, fun h => ?_⟩
  rw [(rfl :
    ParseExpression "a or b ? x : y" =
      .ok (.binary ⟨1, 3⟩ (.varRef ⟨1, 1⟩ "a") .OR
        (.ternary ⟨1, 8⟩ (.varRef ⟨1, 6⟩ "b")
          (.varRef ⟨1, 10⟩ "x") (.varRef ⟨1, 14⟩ "y"))))] at h
  injection h with h
  exact Expr.noConfusion h

/-- C6 (amended): the ternary sits between logical-NOT and equality in the
precedence ladder, so it binds TIGHTER than `and`, `xor` and `or`: for any
identifiers `a b x y`, the token stream of `a or b ? x : y` parses as
`a or (b ? x : y)`. -/
theorem ternary_binds_tighter_than_logical_ops
    (a b x y : String) (p1 p2 p3 p4 p5 p6 p7 p8 : Position) :
    pExpression 64
      ⟨⟨p1, .NAME, a⟩,
        [⟨p2, .OR, ""⟩, ⟨p3, .NAME, b⟩, ⟨p4, .QUESTION, ""⟩,
         ⟨p5, .NAME, x⟩, ⟨p6, .COLON, ""⟩, ⟨p7, .NAME, y⟩,
         ⟨p8, .EOF, ""⟩]⟩ =
      .ok (.binary p2 (.varRef p1 a) .OR
        (.ternary p4 (.varRef p3 b) (.varRef p5 x) (.varRef p7 y)),
        ⟨⟨p8, .EOF, ""⟩, []⟩) :=
  rfl

/-- C1 counterexample: `and`/`or` require boolean operands — a non-boolean
operand raises a type error rather than being coerced by truthiness — and
`not` applied to a non-boolean (here `0`) raises "not requires a bool"
rather than returning its negated truthiness. -/
theorem logical_ops_truthiness_cex :
    (evalExpr (fun _ => none) 10 [[]]
      (.binary ⟨1, 1⟩ (.literal ⟨1, 1⟩ (.int 1)) .AND
        (.literal ⟨1, 7⟩ (.bool true)))).1
      = .error (.typeErr ⟨1, 1⟩ "and requires two bools") ∧
    (evalExpr (fun _ => none) 10 [[]]
      (.binary ⟨1, 1⟩ (.literal ⟨1, 1⟩ (.int 1)) .OR
        (.literal ⟨1, 6⟩ (.bool false)))).1
      = .error (.typeErr ⟨1, 1⟩ "or requires two bools") ∧
    evalNot ⟨1, 1⟩ (.int 0) = .error (.typeErr ⟨1, 1⟩ "not requires a bool") ∧
    evalNot ⟨1, 1⟩ (.int 0) ≠ .ok (.bool true) :=
  ⟨rfl, rfl, rfl, fun h => Except.noConfusion h⟩

/-- C1 (amended): `and` and `or` short-circuit on the left operand's BOOLEAN
value and require both (evaluated) operands to be booleans: `false and e`
yields `false` and `true or e` yields `true` without evaluating `e`; an
evaluated non-boolean operand raises the type error "and/or requires two
bools".  `not` requires a boolean and returns its negation, raising "not
requires a bool" otherwise. -/
theorem logical_and_or_not_require_bools (fs : FS) (fuel : Nat)
    (st st' : Scopes) (pos : Position) (le re : Expr) :
    (evalExpr fs fuel st le = (.ok (.bool false), st') →
      evalExpr fs (fuel + 1) st (.binary pos le .AND re) =
        (.ok (.bool false), st')) ∧
    (∀ st'' b, evalExpr fs fuel st le = (.ok (.bool true), st') →
      evalExpr fs fuel st' re = (.ok (.bool b), st'') →
      evalExpr fs (fuel + 1) st (.binary pos le .AND re) =
        (.ok (.bool b), st'')) ∧
    (∀ st'' rv, evalExpr fs fuel st le = (.ok (.bool true), st') →
      evalExpr fs fuel st' re = (.ok rv, st'') → (∀ b, rv ≠ .bool b) →
      evalExpr fs (fuel + 1) st (.binary pos le .AND re) =
        (.error (.typeErr pos "and requires two bools"), st'')) ∧
    (∀ lv, evalExpr fs fuel st le = (.ok lv, st') → (∀ b, lv ≠ .bool b) →
      evalExpr fs (fuel + 1) st (.binary pos le .AND re) =
        (.error (.typeErr pos "and requires two bools"), st')) ∧
    (evalExpr fs fuel st le = (.ok (.bool true), st') →
      evalExpr fs (fuel + 1) st (.binary pos le .OR re) =
        (.ok (.bool true), st')) ∧
    (∀ st'' b, evalExpr fs fuel st le = (.ok (.bool false), st') →
      evalExpr fs fuel st' re = (.ok (.bool b), st'') →
      evalExpr fs (fuel + 1) st (.binary pos le .OR re) =
        (.ok (.bool b), st'')) ∧
    (∀ st'' rv, evalExpr fs fuel st le = (.ok (.bool false), st') →
      evalExpr fs fuel st' re = (.ok rv, st'') → (∀ b, rv ≠ .bool b) →
      evalExpr fs (fuel + 1) st (.binary pos le .OR re) =
        (.error (.typeErr pos "or requires two bools"), st'')) ∧
    (∀ lv, evalExpr fs fuel st le = (.ok lv, st') → (∀ b, lv ≠ .bool b) →
      evalExpr fs (fuel + 1) st (.binary pos le .OR re) =
        (.error (.typeErr pos "or requires two bools"), st')) ∧
    (∀ b, evalNot pos (.bool b) = .ok (.bool (!b))) ∧
    (∀ v, (∀ b, v ≠ .bool b) →
      evalNot pos v = .error (.typeErr pos "not requires a bool")) := by
  refine ⟨fun h1 => ?_, fun st'' b h1 h2 => ?_, fun st'' rv h1 h2 hnb => ?_,
    fun lv h1 hnb => ?_, fun h1 => ?_, fun st'' b h1 h2 => ?_,
    fun st'' rv h1 h2 hnb => ?_, fun lv h1 hnb => ?_, fun b => rfl, fun v hnb => ?_⟩
  · simp [evalExpr, h1]
  · simp [evalExpr, h1, h2]
  · cases rv with
    | bool b => exact absurd rfl (hnb b)
    | null => simp [evalExpr, h1, h2]
    | int n => simp [evalExpr, h1, h2]
    | float q => simp [evalExpr, h1, h2]
    | str s => simp [evalExpr, h1, h2]
    | arr l => simp [evalExpr, h1, h2]
    | obj l => simp [evalExpr, h1, h2]
    | fn f => simp [evalExpr, h1, h2]
  · cases lv with
    | bool b =>
      cases b with
      | true => exact absurd rfl (hnb true)
      | false => exact absurd rfl (hnb false)
    | null => simp [evalExpr, h1]
    | int n => simp [evalExpr, h1]
    | float q => simp [evalExpr, h1]
    | str s => simp [evalExpr, h1]
    | arr l => simp [evalExpr, h1]
    | obj l => simp [evalExpr, h1]
    | fn f => simp [evalExpr, h1]
  · simp [evalExpr, h1]
  · simp [evalExpr, h1, h2]
  · cases rv with
    | bool b => exact absurd rfl (hnb b)
    | null => simp [evalExpr, h1, h2]
    | int n => simp [evalExpr, h1, h2]
    | float q => simp [evalExpr, h1, h2]
    | str s => simp [evalExpr, h1, h2]
    | arr l => simp [evalExpr, h1, h2]
    | obj l => simp [evalExpr, h1, h2]
    | fn f => simp [evalExpr, h1, h2]
  · cases lv with
    | bool b =>
      cases b with
      | true => exact absurd rfl (hnb true)
      | false => exact absurd rfl (hnb false)
    | null => simp [evalExpr, h1]
    | int n => simp [evalExpr, h1]
    | float q => simp [evalExpr, h1]
    | str s => simp [evalExpr, h1]
    | arr l => simp [evalExpr, h1]
    | obj l => simp [evalExpr, h1]
    | fn f => simp [evalExpr, h1]
  · cases v with
    | bool b => exact absurd rfl (hnb b)
    | null => rfl
    | int n => rfl
    | float q => rfl
    | str s => rfl
    | arr l => rfl
    | obj l => rfl
    | fn f => rfl

/-- Witness for `logical_and_or_not_require_bools`: concrete instances of
short-circuiting, boolean results and the type errors. -/
theorem logical_and_or_not_require_bools_witness :
    evalExpr (fun _ => none) 2 [[]]
      (.binary ⟨1, 1⟩ (.literal ⟨1, 1⟩ (.bool false)) .AND
        (.literal ⟨1, 2⟩ (.int 3))) = (.ok (.bool false), [[]]) ∧
    evalExpr (fun _ => none) 2 [[]]
      (.binary ⟨1, 1⟩ (.literal ⟨1, 1⟩ (.bool true)) .AND
        (.literal ⟨1, 2⟩ (.int 3))) =
      (.error (.typeErr ⟨1, 1⟩ "and requires two bools"), [[]]) ∧
    evalExpr (fun _ => none) 2 [[]]
      (.binary ⟨1, 1⟩ (.literal ⟨1, 1⟩ (.bool true)) .OR
        (.literal ⟨1, 2⟩ (.int 3))) = (.ok (.bool true), [[]]) ∧
    evalExpr (fun _ => none) 2 [[]]
      (.binary ⟨1, 1⟩ (.literal ⟨1, 1⟩ (.str "x")) .OR
        (.literal ⟨1, 2⟩ (.bool true))) =
      (.error (.typeErr ⟨1, 1⟩ "or requires two bools"), [[]]) ∧
    evalNot ⟨1, 1⟩ (.bool true) = .ok (.bool false) ∧
    evalNot ⟨1, 1⟩ (.str "x") = .error (.typeErr ⟨1, 1⟩ "not requires a bool") := by
  have T := logical_and_or_not_require_bools (fun _ => none) 1 [[]] [[]] ⟨1, 1⟩
  refine ⟨(T (.literal ⟨1, 1⟩ (.bool false)) (.literal ⟨1, 2⟩ (.int 3))).1 rfl,
    (T (.literal ⟨1, 1⟩ (.bool true)) (.literal ⟨1, 2⟩ (.int 3))).2.2.1 [[]]
      (.int 3) rfl rfl (fun b h => Val.noConfusion h),
    (T (.literal ⟨1, 1⟩ (.bool true)) (.literal ⟨1, 2⟩ (.int 3))).2.2.2.2.1 rfl,
    (T (.literal ⟨1, 1⟩ (.str "x")) (.literal ⟨1, 2⟩ (.bool true))).2.2.2.2.2.2.2.1
      (.str "x") rfl (fun b h => Val.noConfusion h),
    (T (.literal ⟨1, 1⟩ .null) (.literal ⟨1, 1⟩ .null)).2.2.2.2.2.2.2.2.1 true,
    (T (.literal ⟨1, 1⟩ .null) (.literal ⟨1, 1⟩ .null)).2.2.2.2.2.2.2.2.2
      (.str "x") (fun b h => Val.noConfusion h)⟩

/-- Storing a key makes it readable (Go map semantics of the association
list model). -/
theorem objLookup_objSet_self (m : List (String × Val)) (k : String) (v : Val) :
    objLookup (objSet m k v) k = some v := by
  induction m with
  | nil => simp [objSet, objLookup]
  | cons kv rest ih =>
    by_cases h : kv.1 = k
    · simp [objSet, h, objLookup]
    · simp [objSet, h, objLookup, ih]

/-- The parameter frame built by `userFunction.call` binds the last
parameter to the last argument (later bindings overwrite earlier ones, as
map stores do). -/
theorem paramFrame_lookup_last (ps : List String) (lastName : String)
    (vs : List Val) (v : Val) (hlen : ps.length = vs.length) :
    objLookup
      ((List.zip (ps ++ [lastName]) (vs ++ [v])).foldl
        (fun acc kv => objSet acc kv.1 kv.2) [])
      lastName = some v := by
  rw [List.zip_append hlen, List.foldl_append]
  simp [List.zip, objLookup_objSet_self]

/-- C8 (amended): for user-defined function calls, (a) a non-variadic callee
whose argument count differs from `len(params)` raises the type error
"<name>() requires N args, got M"; (b) a variadic callee supplied at least
`len(params)-1` arguments collects the extras into a fresh array bound to
the last parameter and raises no arity error (observed by a body returning
the last parameter); (c) a variadic callee supplied FEWER than
`len(params)-1` arguments fails with the Go slice-bounds panic from
`args[len(f.Parameters)-1:]`, not with the documented type error. -/
theorem userFunction_arity_semantics (fs : FS) (fuel : Nat) (st : Scopes)
    (pos pr pv : Position) :
    (∀ (u : UserFn) (args : List Val), u.ellipsis = false →
      args.length ≠ u.params.length →
      callUser fs (fuel + 1) st pos u args =
        (.error (.typeErr pos
          (ensureNumArgsMsg u.name u.params.length args.length)), st)) ∧
    (∀ (name lastName : String) (ps : List String) (closure : Frame)
        (args : List Val), ps.length ≤ args.length →
      callFunction fs (fuel + 5) st pos
        (.mk name (ps ++ [lastName]) true [.ret pr (.varRef pv lastName)] closure)
        args =
        (.ok (.arr (args.drop ps.length)), st)) ∧
    (∀ (u : UserFn) (args : List Val), u.ellipsis = true →
      (args.length : Int) < (u.params.length : Int) - 1 ∨ u.params = [] →
      callUser fs (fuel + 1) st pos u args =
        (.error (.hostPanic "runtime error: slice bounds out of range"), st)) := by
  refine ⟨fun u args he hne => ?_, fun name lastName ps closure args hlen => ?_,
    fun u args he hcase => ?_⟩
  · simp [callUser, he, hne]
  · set u : UserFn :=
      .mk name (ps ++ [lastName]) true [.ret pr (.varRef pv lastName)] closure
      with hu
    have hell : u.ellipsis = true := rfl
    have hps : u.params = ps ++ [lastName] := rfl
    have hlen' : u.params.length = ps.length + 1 := by simp [hps]
    have hguard : ¬ (u.ellipsis = true ∧ ((u.params.length : Int) - 1 < 0 ∨
        (args.length : Int) < (u.params.length : Int) - 1)) := by
      rw [hlen']
      push_cast
      omega
    have htake : ps.length + 1 - 1 = ps.length := rfl
    have hargs' :
        (args.take (u.params.length - 1) ++
          [Val.arr (args.drop (u.params.length - 1))]) =
        (args.take ps.length ++ [Val.arr (args.drop ps.length)]) := by
      rw [hlen']
      simp
    have hlen2 : (args.take ps.length ++
        [Val.arr (args.drop ps.length)]).length = u.params.length := by
      simp [hlen', List.length_take]
      omega
    have hfold :
        objLookup
          ((List.zip (ps ++ [lastName])
            (args.take ps.length ++ [Val.arr (args.drop ps.length)])).foldl
            (fun acc kv => objSet acc kv.1 kv.2) [])
          lastName = some (.arr (args.drop ps.length)) :=
      paramFrame_lookup_last ps lastName (args.take ps.length)
        (.arr (args.drop ps.length)) (by simp [List.length_take]; omega)
    have hcu : callUser fs (fuel + 4) st pos u args =
        (.error (.returnExc (.arr (args.drop ps.length)) pr), st) := by
      rw [callUser]
      rw [if_neg hguard]
      simp only [hell, if_true, hargs']
      rw [if_neg (by rw [hlen2]; exact fun h => h rfl)]
      have hbody : u.body = [.ret pr (.varRef pv lastName)] := rfl
      rw [hbody]
      rw [execBlock]
      rw [execStmt]
      rw [evalExpr]
      simp only [lookupVar, hps, hfold]
      rfl
    simp [callFunction, hcu]
  · rcases hcase with h | h
    · have hg : u.ellipsis = true ∧ ((u.params.length : Int) - 1 < 0 ∨
          (args.length : Int) < (u.params.length : Int) - 1) := ⟨he, Or.inr h⟩
      rw [callUser, if_pos hg]
    · have hg : u.ellipsis = true ∧ ((u.params.length : Int) - 1 < 0 ∨
          (args.length : Int) < (u.params.length : Int) - 1) :=
        ⟨he, Or.inl (by simp [h])⟩
      rw [callUser, if_pos hg]

/-- Witness for `userFunction_arity_semantics`: a two-parameter function
called with one argument; a variadic `f(a, rest...)` called with three
arguments returning `rest = [2, 3]`; a three-parameter variadic called with
one argument panicking. -/
theorem userFunction_arity_semantics_witness :
    callUser (fun _ => none) 1 [[]] ⟨1, 1⟩ (.mk "f" ["a", "b"] false [] []) [.int 7] =
      (.error (.typeErr ⟨1, 1⟩ "f() requires 2 args, got 1"), [[]]) ∧
    callFunction (fun _ => none) 5 [[]] ⟨1, 1⟩
      (.mk "f" (["a"] ++ ["rest"]) true [.ret ⟨2, 3⟩ (.varRef ⟨2, 10⟩ "rest")] [])
      [.int 1, .int 2, .int 3] =
      (.ok (.arr [.int 2, .int 3]), [[]]) ∧
    callUser (fun _ => none) 1 [[]] ⟨1, 1⟩ (.mk "f" ["a", "b", "rest"] true [] [])
      [.int 1] =
      (.error (.hostPanic "runtime error: slice bounds out of range"), [[]]) := by
  have T := userFunction_arity_semantics (fun _ => none) 0 [[]] ⟨1, 1⟩ ⟨2, 3⟩ ⟨2, 10⟩
  exact ⟨T.1 (.mk "f" ["a", "b"] false [] []) [.int 7] rfl (by decide),
    T.2.1 "f" "rest" ["a"] [] [.int 1, .int 2, .int 3] (by decide),
    T.2.2 (.mk "f" ["a", "b", "rest"] true [] []) [.int 1] rfl
      (Or.inl (by decide))⟩

/-- C8 counterexample: the variadic function `fun f(a, b, rest...)` called
with a single argument does NOT raise the documented arity type error
"f() requires 3 args, got 1" — the call fails with the Go slice-bounds
panic from `args[len(f.Parameters)-1:]` instead. -/
theorem variadic_undersupply_not_type_error_cex :
    callUser (fun _ => none) 1 [[]] ⟨1, 1⟩
        (.mk "f" ["a", "b", "rest"] true [] []) [.int 1] =
      (.error (.hostPanic "runtime error: slice bounds out of range"), [[]]) ∧
    (callUser (fun _ => none) 1 [[]] ⟨1, 1⟩
        (.mk "f" ["a", "b", "rest"] true [] []) [.int 1]).1 ≠
      .error (.typeErr ⟨1, 1⟩ "f() requires 3 args, got 1") :=
  ⟨rfl, fun h => Exc.noConfusion (Except.error.inj h)⟩

/-- C4 counterexample: a `break` raised inside a `try` block does NOT
propagate out of the `try` statement — it is caught by the `catch`, which
binds the break's diagnostic text ("break at 1:6") to the error variable;
observed here by a catch block returning that variable. -/
theorem tryCatch_catches_break_cex :
    (execStmt (fun _ => none) 10 [[]]
      (.tryCatch ⟨1, 1⟩ [.brk ⟨1, 6⟩] "e" [.ret ⟨1, 23⟩ (.varRef ⟨1, 30⟩ "e")])).1
      = .error (.returnExc (.str "break at 1:6") ⟨1, 23⟩) ∧
    (execStmt (fun _ => none) 10 [[]]
      (.tryCatch ⟨1, 1⟩ [.brk ⟨1, 6⟩] "e" [.ret ⟨1, 23⟩ (.varRef ⟨1, 30⟩ "e")])).1
      ≠ .error (.breakExc ⟨1, 6⟩) :=
  ⟨rfl, fun h => Exc.noConfusion (Except.error.inj h)⟩

/-- C4 (amended): `try`/`catch` catches EVERY unwind raised in the try block
except `Return`: runtime errors, and also `Break` and `Continue` unwinds,
are caught with their rendered message text bound to the catch variable
(observed here by a catch block returning it); only a `Return` unwind
propagates out of the try statement uncaught. -/
theorem tryCatch_catches_all_but_return (fs : FS) (fuel : Nat)
    (st st' : Scopes) (pos pr pv : Position) (tb : Block) (v : String)
    (exc : Exc)
    (h : execBlock fs (fuel + 3) ([] :: st) tb = (.error exc, st')) :
    (∀ vv pp (cb : Block), exc = .returnExc vv pp →
      execStmt fs (fuel + 4) st (.tryCatch pos tb v cb) =
        (.error (.returnExc vv pp), [] :: st'.tail)) ∧
    (exc.isReturn = false → exc ≠ .outOfFuel →
      execStmt fs (fuel + 4) st (.tryCatch pos tb v [.ret pr (.varRef pv v)]) =
        (.error (.returnExc (.str (errString exc)) pr),
          [(v, Val.str (errString exc))] :: st'.tail)) := by
  constructor
  · rintro vv pp cb rfl
    rw [execStmt]
    rw [h]
  · intro hnr hnf
    rw [execStmt]
    rw [h]
    have hassign : assignVar ([] :: st'.tail) v (.str (errString exc)) =
        [(v, Val.str (errString exc))] :: st'.tail := rfl
    have hcatch : execBlock fs (fuel + 3)
        ([(v, Val.str (errString exc))] :: st'.tail)
        [.ret pr (.varRef pv v)] =
        (.error (.returnExc (.str (errString exc)) pr),
          [(v, Val.str (errString exc))] :: st'.tail) := by
      rw [execBlock, execStmt, evalExpr]
      simp [lookupVar, objLookup]
    cases exc with
    | returnExc vv pp => simp [Exc.isReturn] at hnr
    | outOfFuel => exact absurd rfl hnf
    | typeErr p m => dsimp only; rw [hassign, hcatch]
    | valueErr p m => dsimp only; rw [hassign, hcatch]
    | nameErr p m => dsimp only; rw [hassign, hcatch]
    | runtimeErr p m => dsimp only; rw [hassign, hcatch]
    | breakExc p => dsimp only; rw [hassign, hcatch]
    | continueExc p => dsimp only; rw [hassign, hcatch]
    | hostPanic m => dsimp only; rw [hassign, hcatch]

/-- Witness for `tryCatch_catches_all_but_return`: a `break` in the try
block is caught and its text returned by the catch block; a `return` in the
try block propagates. -/
theorem tryCatch_catches_all_but_return_witness :
    execStmt (fun _ => none) 4 [[]]
      (.tryCatch ⟨1, 1⟩ [.brk ⟨1, 6⟩] "e" [.ret ⟨1, 23⟩ (.varRef ⟨1, 30⟩ "e")]) =
      (.error (.returnExc (.str "break at 1:6") ⟨1, 23⟩),
        [("e", Val.str "break at 1:6")] :: [[]]) ∧
    execStmt (fun _ => none) 4 [[]]
      (.tryCatch ⟨1, 1⟩ [.ret ⟨1, 6⟩ (.literal ⟨1, 13⟩ (.int 7))] "e" []) =
      (.error (.returnExc (.int 7) ⟨1, 6⟩), [] :: [[]]) := by
  constructor
  · have T := tryCatch_catches_all_but_return (fun _ => none) 0 [[]] [[], []]
      ⟨1, 1⟩ ⟨1, 23⟩ ⟨1, 30⟩ [.brk ⟨1, 6⟩] "e" (.breakExc ⟨1, 6⟩) rfl
    simpa using T.2 rfl (fun hh => Exc.noConfusion hh)
  · have T := tryCatch_catches_all_but_return (fun _ => none) 0 [[]] [[], []]
      ⟨1, 1⟩ ⟨1, 23⟩ ⟨1, 30⟩ [.ret ⟨1, 6⟩ (.literal ⟨1, 13⟩ (.int 7))] "e"
      (.returnExc (.int 7) ⟨1, 6⟩) rfl
    simpa using T.1 (.int 7) ⟨1, 6⟩ [] rfl

/-- C3 counterexample: over a file system that contains only
`examples/lib.din`, the statement `import "lib"` FAILS (it reads exactly the
literal path `lib`: no `.din` suffix is appended and no candidate paths are
tried) while the `import("lib")` built-in resolves the file and succeeds —
so the statement does not share the built-in's resolution algorithm.
Moreover the statement executes a top-level `fun main` definition from the
imported file (binding `main`), while the built-in skips it. -/
theorem import_statement_resolution_cex :
    (executeImport (fun p => if p = "examples/lib.din" then some "x = 42" else none)
      50 [[]] ⟨1, 1⟩ "lib").1 =
      .error (.runtimeErr ⟨1, 1⟩
        "failed to import file 'lib': open lib: no such file or directory") ∧
    (importFunc (fun p => if p = "examples/lib.din" then some "x = 42" else none)
      "cwd" 50 [[]] ⟨1, 1⟩ [.str "lib"]).1 = .ok (.bool true) ∧
    (lookupVar (executeImport (fun p => if p = "m.din" then some "fun main(): end" else none)
      50 [[]] ⟨1, 1⟩ "m.din").2 "main").isSome = true ∧
    (lookupVar (importFunc (fun p => if p = "m.din" then some "fun main(): end" else none)
      "cwd" 50 [[]] ⟨1, 1⟩ [.str "m.din"]).2 "main").isSome = false :=
  ⟨rfl, rfl, rfl, rfl⟩

/-- C3 (amended): only the `import()` BUILT-IN implements the resolution
algorithm — appending the `.din` suffix when absent and trying the
candidates (exact path, cwd-relative, `examples/`, `../examples/`) in order
— and skips a top-level `fun main` definition of the imported file.  The
`import` STATEMENT reads exactly its literal filename (a missing file is a
runtime error) and executes every top-level statement in the current
environment, including `fun main` definitions. -/
theorem import_statement_vs_builtin_resolution (fs : FS) (fuel : Nat)
    (st : Scopes) (pos : Position) (f cwd : String) :
    (fs f = none → executeImport fs (fuel + 1) st pos f =
      (.error (.runtimeErr pos ("failed to import file '" ++ f ++
        "': open " ++ f ++ ": no such file or directory")), st)) ∧
    (∀ content prog, fs f = some content → ParseProgram content = .ok prog →
      executeImport fs (fuel + 1) st pos f = execBlock fs fuel st prog) ∧
    (isAbsPath f = false → importCandidates cwd f =
      [f, cwd ++ "/" ++ f, "examples/" ++ f, "../examples/" ++ f]) ∧
    (firstReadable fs (importCandidates cwd
        (if goHasSuffix f ".din" then f else f ++ ".din")) = none →
      importFunc fs cwd fuel st pos [.str f] = (.ok (.bool false), st)) ∧
    (∀ p content prog st', firstReadable fs (importCandidates cwd
        (if goHasSuffix f ".din" then f else f ++ ".din")) = some (p, content) →
      ParseProgram content = .ok prog →
      runImportedStmts fs fuel st prog = (.ok (), st') →
      importFunc fs cwd fuel st pos [.str f] = (.ok (.bool true), st')) ∧
    (∀ (p : Position) (params : List String) (ell : Bool) (body rest : Block),
      runImportedStmts fs fuel st (.funDef p "main" params ell body :: rest) =
        runImportedStmts fs fuel st rest) := by
  refine ⟨fun h => ?_, fun content prog h1 h2 => ?_, fun h => ?_,
    fun h => ?_, fun p content prog st' h1 h2 h3 => ?_,
    fun p params ell body rest => ?_⟩
  · simp [executeImport, h]
  · simp [executeImport, h1, h2]
  · simp [importCandidates, h, joinPath]
  · simp [importFunc, h]
  · simp [importFunc, h1, h2, h3]
  · simp [runImportedStmts, isMainDef]

/-- Witness for `import_statement_vs_builtin_resolution`: concrete file
systems exercising the missing-file error, the statement executing an
assignment, the candidate list, the builtin's failure result, the builtin's
success, and main skipping. -/
theorem import_statement_vs_builtin_resolution_witness :
    executeImport (fun _ => none) 50 [[]] ⟨1, 1⟩ "lib.din" =
      (.error (.runtimeErr ⟨1, 1⟩
        "failed to import file 'lib.din': open lib.din: no such file or directory"),
        [[]]) ∧
    importCandidates "cwd" "lib.din" =
      ["lib.din", "cwd" ++ "/" ++ "lib.din", "examples/" ++ "lib.din",
        "../examples/" ++ "lib.din"] ∧
    importFunc (fun _ => none) "cwd" 49 [[]] ⟨1, 1⟩ [.str "lib"] =
      (.ok (.bool false), [[]]) ∧
    importFunc (fun p => if p = "examples/lib.din" then some "x = 42" else none)
      "cwd" 49 [[]] ⟨1, 1⟩ [.str "lib"] =
      (.ok (.bool true), [[("x", Val.int 42)]]) ∧
    runImportedStmts (fun _ => none) 49 [[]]
      [.funDef ⟨1, 1⟩ "main" [] false []] = (.ok (), [[]]) := by
  have T1 := import_statement_vs_builtin_resolution (fun _ => none) 49 [[]]
    ⟨1, 1⟩ "lib.din" "cwd"
  have T2 := import_statement_vs_builtin_resolution (fun _ => none) 49 [[]]
    ⟨1, 1⟩ "lib" "cwd"
  have T3 := import_statement_vs_builtin_resolution
    (fun p => if p = "examples/lib.din" then some "x = 42" else none) 49 [[]]
    ⟨1, 1⟩ "lib" "cwd"
  refine ⟨T1.1 rfl, T1.2.2.1 rfl, T2.2.2.2.1 rfl, ?_, ?_⟩
  · exact T3.2.2.2.2.1 "examples/lib.din" "x = 42"
      [.assign ⟨1, 3⟩ (.varRef ⟨1, 1⟩ "x") (.literal ⟨1, 5⟩ (.int 42))]
      [[("x", Val.int 42)]] rfl rfl rfl
  · exact T1.2.2.2.2.2 ⟨1, 1⟩ [] false [] []

/-!  ### The object rendering is sorted and order-independent (C10)

`toString` renders every object pair as a `%q`-quoted key item and sorts the
item strings.  To relate that to sorting by the rendered KEY we show the
quoting is a prefix-free code, using a decoding companion `decodeQ` that
recovers the original string from `escape(s) ++ '"' :: rest`. -/

/-- Value of a lowercase hex digit (the digits `Nat.digitChar` produces for
values below 16). -/
def hexVal (c : Char) : Nat :=
  if '0' ≤ c ∧ c ≤ '9' then c.toNat - '0'.toNat
  else if 'a' ≤ c ∧ c ≤ 'f' then c.toNat - 'a'.toNat + 10
  else 0

/-- State of the quoted-body decoder: at the top level, after a backslash,
expecting the first hex digit, or expecting the second hex digit. -/
inductive DecSt where
  | top : DecSt
  | esc : DecSt
  | hex1 : DecSt
  | hex2 : Char → DecSt

/-- Greedy decoder for a quoted body, one character per step: reads escape
units until the unescaped closing quote, returning the decoded characters
and the remainder.  This is a proof companion of `escRune` (not part of the
interpreter): it certifies that `escRune`-encoded bodies are uniquely
decodable. -/
def decodeQA : DecSt → List Char → Option (List Char × List Char)
  | _, [] => none
  | .top, c :: rest =>
    if c = '"' then some ([], rest)
    else if c = '\\' then decodeQA .esc rest
    else (decodeQA .top rest).map (fun pr => (c :: pr.1, pr.2))
  | .esc, e :: rest =>
    if e = 'x' then decodeQA .hex1 rest
    else if e = '"' ∨ e = '\\' then
      (decodeQA .top rest).map (fun pr => (e :: pr.1, pr.2))
    else if e = 'a' then
      (decodeQA .top rest).map (fun pr => (Char.ofNat 0x07 :: pr.1, pr.2))
    else if e = 'b' then
      (decodeQA .top rest).map (fun pr => (Char.ofNat 0x08 :: pr.1, pr.2))
    else if e = 'f' then
      (decodeQA .top rest).map (fun pr => (Char.ofNat 0x0c :: pr.1, pr.2))
    else if e = 'n' then
      (decodeQA .top rest).map (fun pr => ('\n' :: pr.1, pr.2))
    else if e = 'r' then
      (decodeQA .top rest).map (fun pr => ('\r' :: pr.1, pr.2))
    else if e = 't' then
      (decodeQA .top rest).map (fun pr => ('\t' :: pr.1, pr.2))
    else if e = 'v' then
      (decodeQA .top rest).map (fun pr => (Char.ofNat 0x0b :: pr.1, pr.2))
    else none
  | .hex1, d :: rest => decodeQA (.hex2 d) rest
  | .hex2 hi, d :: rest =>
    (decodeQA .top rest).map
      (fun pr => (Char.ofNat (16 * hexVal hi + hexVal d) :: pr.1, pr.2))

/-- The decoder proper: start in the top-level state. -/
def decodeQ (l : List Char) : Option (List Char × List Char) :=
  decodeQA .top l

/-- Decoder step: an ordinary character (no quote, no backslash) is passed
through. -/
theorem decodeQ_plain (c : Char) (rest : List Char) (hq : c ≠ '"')
    (hb : c ≠ '\\') :
    decodeQ (c :: rest) = (decodeQ rest).map (fun pr => (c :: pr.1, pr.2)) := by
  show decodeQA .top (c :: rest) = _
  simp only [decodeQA]
  rw [if_neg hq, if_neg hb]
  rfl

/-- `Nat.digitChar` and `hexVal` are inverse on values below 16. -/
theorem hexVal_digitChar : ∀ n : Fin 16, hexVal (Nat.digitChar n.val) = n.val := by
  decide

set_option maxHeartbeats 2000000 in
/-- Decoding after one escape unit: the decoder consumes exactly
`escRune c` and produces `c`. -/
theorem decodeQ_escRune (c : Char) (z : List Char) :
    decodeQ (escRune c ++ z) = (decodeQ z).map (fun pr => (c :: pr.1, pr.2)) := by
  unfold escRune
  split_ifs with h1 h2 h3 h4 h5 h6 h7 h8 h9 h10
  · rcases h1 with h | h <;> subst h <;> rfl
  · have hq : c ≠ '"' := fun h => h1 (Or.inl h)
    have hb : c ≠ '\\' := fun h => h1 (Or.inr h)
    exact decodeQ_plain c z hq hb
  · have hc : Char.ofNat 0x07 = c := by rw [← h3, Char.ofNat_toNat]
    have : decodeQ (['\\', 'a'] ++ z) =
        (decodeQ z).map (fun pr => (Char.ofNat 0x07 :: pr.1, pr.2)) := rfl
    rw [this, hc]
  · have hc : Char.ofNat 0x08 = c := by rw [← h4, Char.ofNat_toNat]
    have : decodeQ (['\\', 'b'] ++ z) =
        (decodeQ z).map (fun pr => (Char.ofNat 0x08 :: pr.1, pr.2)) := rfl
    rw [this, hc]
  · have hc : Char.ofNat 0x0c = c := by rw [← h5, Char.ofNat_toNat]
    have : decodeQ (['\\', 'f'] ++ z) =
        (decodeQ z).map (fun pr => (Char.ofNat 0x0c :: pr.1, pr.2)) := rfl
    rw [this, hc]
  · subst h6; rfl
  · subst h7; rfl
  · subst h8; rfl
  · have hc : Char.ofNat 0x0b = c := by rw [← h9, Char.ofNat_toNat]
    have : decodeQ (['\\', 'v'] ++ z) =
        (decodeQ z).map (fun pr => (Char.ofNat 0x0b :: pr.1, pr.2)) := rfl
    rw [this, hc]
  · have hdiv : c.toNat / 16 < 16 := by omega
    have hmod : c.toNat % 16 < 16 := by omega
    have e1 : hexVal (Nat.digitChar (c.toNat / 16)) = c.toNat / 16 :=
      hexVal_digitChar ⟨c.toNat / 16, hdiv⟩
    have e2 : hexVal (Nat.digitChar (c.toNat % 16)) = c.toNat % 16 :=
      hexVal_digitChar ⟨c.toNat % 16, hmod⟩
    have e3 : 16 * (c.toNat / 16) + c.toNat % 16 = c.toNat := by omega
    have hstep : decodeQ (['\\', 'x', Nat.digitChar (c.toNat / 16),
        Nat.digitChar (c.toNat % 16)] ++ z) =
        (decodeQ z).map
          (fun pr => (Char.ofNat (16 * hexVal (Nat.digitChar (c.toNat / 16)) +
            hexVal (Nat.digitChar (c.toNat % 16))) :: pr.1, pr.2)) := rfl
    rw [hstep, e1, e2, e3, Char.ofNat_toNat]
  · have hq : c ≠ '"' := fun h => h1 (Or.inl h)
    have hb : c ≠ '\\' := fun h => h1 (Or.inr h)
    exact decodeQ_plain c z hq hb

/-- The decoder recovers a string from its escaped body followed by the
closing quote, leaving the remainder untouched. -/
theorem decodeQ_body (s : List Char) (rest : List Char) :
    decodeQ (s.flatMap escRune ++ ('"' :: rest)) = some (s, rest) := by
  induction s with
  | nil => rfl
  | cons c s ih =>
    rw [List.flatMap_cons, List.append_assoc, decodeQ_escRune, ih]
    rfl

/-- Quoted bodies are prefix-free: if one escaped-and-closed body is a
prefix of another, the underlying strings are equal. -/
theorem body_prefix_inj {s1 s2 : List Char}
    (h : s1.flatMap escRune ++ ['"'] <+: s2.flatMap escRune ++ ['"']) :
    s1 = s2 := by
  rcases h with ⟨r, hr⟩
  have h1 : s1.flatMap escRune ++ ('"' :: r) = s2.flatMap escRune ++ ['"'] := by
    rw [← hr]
    simp
  have d1 := decodeQ_body s1 r
  rw [h1, decodeQ_body s2 []] at d1
  simp only [Option.some.injEq, Prod.mk.injEq] at d1
  exact d1.1.symm

/-- Distinct strings have non-prefix `%q` renderings. -/
theorem goQuoteData_not_prefix {s1 s2 : String} (h : s1 ≠ s2) :
    ¬ goQuoteData s1 <+: goQuoteData s2 := by
  intro hp
  unfold goQuoteData at hp
  rw [List.cons_append, List.cons_append, List.cons_prefix_cons] at hp
  have hd : s1.data = s2.data := body_prefix_inj hp.2
  exact h (congrArg String.mk hd)

/-- A cons-headed lexicographic comparison with distinct heads is decided by
the heads alone. -/
theorem lex_cons_ne_iff {x y : Char} (A B : List Char) (h : x ≠ y) :
    List.Lex (· < ·) (x :: A) (y :: B) ↔ x < y := by
  constructor
  · intro hl
    cases hl with
    | cons h1 => exact absurd rfl h
    | rel h1 => exact h1
  · intro h1
    exact List.Lex.rel h1

/-- When neither list is a prefix of the other, appending suffixes does not
change their lexicographic comparison. -/
theorem lex_append_iff :
    ∀ (u v a b : List Char), ¬ u <+: v → ¬ v <+: u →
      (List.Lex (· < ·) (u ++ a) (v ++ b) ↔ List.Lex (· < ·) u v)
  | [], _, _, _, h1, _ => absurd List.nil_prefix h1
  | _ :: _, [], _, _, _, h2 => absurd List.nil_prefix h2
  | x :: us, y :: vs, a, b, h1, h2 => by
    by_cases hxy : x = y
    · subst hxy
      rw [List.cons_append, List.cons_append, List.Lex.cons_iff,
        List.Lex.cons_iff]
      exact lex_append_iff us vs a b
        (fun hp => h1 (List.cons_prefix_cons.mpr ⟨rfl, hp⟩))
        (fun hp => h2 (List.cons_prefix_cons.mpr ⟨rfl, hp⟩))
    · rw [List.cons_append, List.cons_append, lex_cons_ne_iff _ _ hxy,
        lex_cons_ne_iff _ _ hxy]

/-- If two appends agree, one of the base lists is a prefix of the other. -/
theorem prefix_or_of_append_eq {u v a b : List Char} (h : u ++ a = v ++ b) :
    u <+: v ∨ v <+: u := by
  rcases le_total u.length v.length with hl | hl
  · left
    have hp : u <+: v ++ b := by rw [← h]; exact List.prefix_append u a
    exact (List.isPrefix_append_of_length hl).mp hp
  · right
    have hp : v <+: u ++ a := by rw [h]; exact List.prefix_append v b
    exact (List.isPrefix_append_of_length hl).mp hp

/-- The linear order on `List Char` decides appends of mutually non-prefix
lists on the base lists. -/
theorem listLe_append_iff {u v : List Char} (a b : List Char)
    (h1 : ¬ u <+: v) (h2 : ¬ v <+: u) :
    (u ++ a ≤ v ++ b) ↔ u ≤ v := by
  have hne : u ≠ v := by
    rintro rfl
    exact h1 (List.prefix_refl _)
  have hne2 : u ++ a ≠ v ++ b := by
    intro he
    rcases prefix_or_of_append_eq he with hp | hp
    · exact h1 hp
    · exact h2 hp
  rw [le_iff_lt_or_eq, le_iff_lt_or_eq]
  constructor
  · rintro (hlt | he)
    · exact Or.inl ((lex_append_iff u v a b h1 h2).mp hlt)
    · exact absurd he hne2
  · rintro (hlt | he)
    · exact Or.inl ((lex_append_iff u v a b h1 h2).mpr hlt)
    · exact absurd he hne

/-- Comparing two strings that extend distinct `%q`-quoted keys is comparing
the quoted keys: the quoting is prefix-free, so the comparison is decided
before the appended item bodies are reached. -/
theorem goQuote_append_le_iff {k1 k2 : String} (r1 r2 : String) (h : k1 ≠ k2) :
    (goQuote k1 ++ r1 ≤ goQuote k2 ++ r2) ↔ goQuote k1 ≤ goQuote k2 := by
  have h1 := goQuoteData_not_prefix h
  have h2 := goQuoteData_not_prefix (Ne.symm h)
  rw [String.le_iff_toList_le, String.le_iff_toList_le]
  have e1 : (goQuote k1 ++ r1).toList = goQuoteData k1 ++ r1.toList := rfl
  have e2 : (goQuote k2 ++ r2).toList = goQuoteData k2 ++ r2.toList := rfl
  rw [e1, e2]
  exact listLe_append_iff r1.toList r2.toList h1 h2

/-- The `%q: value` item string of one object pair (the elements of
`toStrItems`). -/
def itemStr (fr : Rat → String) (kv : String × Val) : String :=
  goQuote kv.1 ++ ": " ++ toStr fr kv.2 true

/-- Order on object pairs used by the sorted-rendering statement: compare
the `%q`-rendered keys. -/
def keyLe (a b : String × Val) : Prop :=
  goQuote a.1 ≤ goQuote b.1

instance : DecidableRel keyLe :=
  fun a b => inferInstanceAs (Decidable (goQuote a.1 ≤ goQuote b.1))

instance : IsTotal (String × Val) keyLe :=
  ⟨fun a b => le_total (goQuote a.1) (goQuote b.1)⟩

instance : IsTrans (String × Val) keyLe :=
  ⟨fun _ _ _ hab hbc => le_trans hab hbc⟩

/-- The object pairs sorted by their `%q`-rendered key. -/
def sortPairsByQuotedKey (pairs : List (String × Val)) : List (String × Val) :=
  List.insertionSort keyLe pairs

/-- `toStrItems` is the pointwise item rendering of the pairs. -/
theorem toStrItems_eq_map (fr : Rat → String) (pairs : List (String × Val)) :
    toStrItems fr pairs = pairs.map (itemStr fr) := by
  induction pairs with
  | nil => rfl
  | cons kv rest ih =>
    cases kv with
    | mk k v => simp only [toStrItems, List.map_cons, itemStr, ih]

/-- With distinct keys, comparing rendered items is comparing rendered
keys. -/
theorem itemStr_le_iff (fr : Rat → String) {a b : String × Val}
    (h : a.1 ≠ b.1) :
    (itemStr fr a ≤ itemStr fr b) ↔ keyLe a b := by
  unfold itemStr
  rw [String.append_assoc, String.append_assoc]
  exact goQuote_append_le_iff _ _ h

/-- C10: `str()` (and hence `print()`) renders an object's pairs sorted
lexicographically by their rendered (`%q`-quoted) key, and the rendering is
invariant under the otherwise unspecified iteration order: for an object
with distinct keys the output is `{` ++ the key-sorted item strings ++ `}`,
and every permutation of the pair list renders to the same string. -/
theorem object_render_sorted_by_key_deterministic (fr : Rat → String)
    (q : Bool) (pairs : List (String × Val))
    (hnd : (pairs.map Prod.fst).Nodup) :
    toStr fr (.obj pairs) q =
      "\x7b" ++ String.intercalate ", "
        ((sortPairsByQuotedKey pairs).map (itemStr fr)) ++ "\x7d" ∧
    ∀ pairs' : List (String × Val), pairs.Perm pairs' →
      toStr fr (.obj pairs) q = toStr fr (.obj pairs') q := by
  constructor
  · have hobj : toStr fr (.obj pairs) q =
        "\x7b" ++ String.intercalate ", " (sortStrings (toStrItems fr pairs)) ++
          "\x7d" := by
      simp only [toStr]
    rw [hobj]
    have hkey : sortStrings (toStrItems fr pairs) =
        (sortPairsByQuotedKey pairs).map (itemStr fr) := by
      rw [toStrItems_eq_map]
      unfold sortStrings sortPairsByQuotedKey
      have hperm1 : (List.insertionSort (· ≤ ·)
          (pairs.map (itemStr fr))).Perm
          ((List.insertionSort keyLe pairs).map (itemStr fr)) :=
        (List.perm_insertionSort _ _).trans
          (((List.perm_insertionSort keyLe pairs).map (itemStr fr)).symm)
      have hsorted1 : List.Sorted (· ≤ ·)
          (List.insertionSort (· ≤ ·) (pairs.map (itemStr fr))) :=
        List.sorted_insertionSort _ _
      have hsorted2 : List.Sorted (· ≤ ·)
          ((List.insertionSort keyLe pairs).map (itemStr fr)) := by
        have hs : List.Sorted keyLe (List.insertionSort keyLe pairs) :=
          List.sorted_insertionSort keyLe pairs
        have hndp : ((List.insertionSort keyLe pairs).map Prod.fst).Nodup :=
          (((List.perm_insertionSort keyLe pairs).map Prod.fst).nodup_iff).mpr
            hnd
        have hne : List.Pairwise (fun a b : String × Val => a.1 ≠ b.1)
            (List.insertionSort keyLe pairs) := List.pairwise_map.mp hndp
        exact List.pairwise_map.mpr
          ((hs.and hne).imp
            (fun {a b} hab => (itemStr_le_iff fr hab.2).mpr hab.1))
      exact List.eq_of_perm_of_sorted hperm1 hsorted1 hsorted2
    rw [hkey]
  · intro pairs' hperm
    have h1 : toStr fr (.obj pairs) q =
        "\x7b" ++ String.intercalate ", " (sortStrings (toStrItems fr pairs)) ++
          "\x7d" := by
      simp only [toStr]
    have h2 : toStr fr (.obj pairs') q =
        "\x7b" ++ String.intercalate ", " (sortStrings (toStrItems fr pairs')) ++
          "\x7d" := by
      simp only [toStr]
    rw [h1, h2]
    have heq : sortStrings (toStrItems fr pairs) =
        sortStrings (toStrItems fr pairs') := by
      unfold sortStrings
      have hp : (toStrItems fr pairs).Perm (toStrItems fr pairs') := by
        rw [toStrItems_eq_map, toStrItems_eq_map]
        exact hperm.map (itemStr fr)
      have hperm1 : (List.insertionSort (· ≤ ·) (toStrItems fr pairs)).Perm
          (List.insertionSort (· ≤ ·) (toStrItems fr pairs')) :=
        (List.perm_insertionSort _ _).trans
          (hp.trans (List.perm_insertionSort _ _).symm)
      have hsorted1 : List.Sorted (· ≤ ·)
          (List.insertionSort (· ≤ ·) (toStrItems fr pairs)) :=
        List.sorted_insertionSort _ _
      have hsorted2 : List.Sorted (· ≤ ·)
          (List.insertionSort (· ≤ ·) (toStrItems fr pairs')) :=
        List.sorted_insertionSort _ _
      exact List.eq_of_perm_of_sorted hperm1 hsorted1 hsorted2
    rw [heq]

/-- The sorted-rendering theorem applied at the concrete two-pair object
with keys `"b"` and `"a"`. -/
theorem object_render_sorted_by_key_deterministic_witness :
    (([("b", Val.int 1), ("a", Val.int 2)].map Prod.fst).Nodup) ∧
    (toStr (fun _ => "") (.obj [("b", Val.int 1), ("a", Val.int 2)]) false =
      "\x7b" ++ String.intercalate ", "
        ((sortPairsByQuotedKey [("b", Val.int 1), ("a", Val.int 2)]).map
          (itemStr (fun _ => ""))) ++ "\x7d" ∧
     ∀ pairs' : List (String × Val),
       ([("b", Val.int 1), ("a", Val.int 2)] : List (String × Val)).Perm
           pairs' →
         toStr (fun _ => "") (.obj [("b", Val.int 1), ("a", Val.int 2)])
             false =
           toStr (fun _ => "") (.obj pairs') false) :=
  ⟨by decide,
   object_render_sorted_by_key_deterministic (fun _ => "") false
     [("b", Val.int 1), ("a", Val.int 2)] (by decide)⟩

end Uddin
